import Mathlib

/-!
# Verification of the `cake-vectory` search / schema / transport layer

A shallow embedding of the Python client `cake_vectory` (files
`utils/api/client.py`, `utils/api/objects.py`, `utils/api/schema.py`,
`utils/api/search.py`, `commands/search.py`).

JSON values are modelled by the inductive type `Json`; Python dictionaries
become association lists preserving insertion order; Python exceptions become
an `Except PyErr` monad.  Remote HTTP/GraphQL responses are passed in as
explicit oracle arguments, so each client method becomes a pure function of
the responses it consumes.  Python `float` repr and `json.dumps` of floats
are abstracted by rendering functions quantified in the theorems.
-/

set_option maxRecDepth 10000

/-- Python exception kinds that the embedded code can raise. -/
inductive PyErr where
  | attributeError
  | typeError
  | valueError
  | indexError
  | keyError
  | exception (msg : String)
  deriving DecidableEq, Repr

/-- JSON values; numbers are modelled as rationals (Python int/float
collapsed), objects as insertion-ordered association lists. -/
inductive Json where
  | null
  | bool (b : Bool)
  | num (q : Rat)
  | str (s : String)
  | arr (xs : List Json)
  | obj (kvs : List (String × Json))

abbrev PyM (α : Type) := Except PyErr α

/-- Python `s.lower()` on strings, modelled per character (structural, so
that concrete evaluations reduce; Python's full-Unicode lowercasing
coincides on the ASCII data handled here). -/
def strLower (s : String) : String :=
  ⟨s.data.map Char.toLower⟩

namespace Json

/-- Lookup in an association list (first match, like a Python dict). -/
def lookup (kvs : List (String × Json)) (k : String) : Option Json :=
  match kvs with
  | [] => none
  | (k', v) :: rest => if k' = k then some v else lookup rest k

/-- Set a key in an association list: replace in place if present
(Python dicts keep the original insertion position), else append. -/
def assocSet (kvs : List (String × Json)) (k : String) (v : Json) :
    List (String × Json) :=
  match kvs with
  | [] => [(k, v)]
  | (k', v') :: rest =>
      if k' = k then (k', v) :: rest else (k', v') :: assocSet rest k v

/-- Python `d.get(k, default)`: only dictionaries have `.get`;
anything else raises `AttributeError`. -/
def pyGetD (j : Json) (k : String) (d : Json) : PyM Json :=
  match j with
  | .obj kvs => .ok ((lookup kvs k).getD d)
  | _ => .error .attributeError

/-- Python `d[k] = v` on a JSON value: only dictionaries support string-key
assignment (a list would raise `TypeError`). -/
def pySetKey (j : Json) (k : String) (v : Json) : PyM Json :=
  match j with
  | .obj kvs => .ok (.obj (assocSet kvs k v))
  | _ => .error .typeError

/-- Python truthiness of a JSON value. -/
def pyTruthy : Json → Bool
  | .null => false
  | .bool b => b
  | .num q => q ≠ 0
  | .str s => s ≠ ""
  | .arr xs => !xs.isEmpty
  | .obj kvs => !kvs.isEmpty

/-- Python `j == s` where `s` is a string: true exactly on the equal string
(Python equality between a string and a non-string is `False`). -/
def pyEqStr (j : Json) (s : String) : Bool :=
  match j with
  | .str t => t == s
  | _ => false

/-- Python `k in j` for a string `k`: key test on dicts, element test on
lists, substring test on strings, `TypeError` otherwise. -/
def pyIn (k : String) (j : Json) : PyM Bool :=
  match j with
  | .obj kvs => .ok ((lookup kvs k).isSome)
  | .arr xs => .ok (xs.any fun x => pyEqStr x k)
  | .str s => .ok (decide (k.data <:+: s.data))
  | _ => .error .typeError

/-- Python `j.lower()`: only strings have `.lower`. -/
def pyLower (j : Json) : PyM String :=
  match j with
  | .str s => .ok (strLower s)
  | _ => .error .attributeError

end Json

/-- Python `needle in hay` for strings: substring containment. -/
def strContains (hay needle : String) : Bool :=
  decide (needle.data <:+: hay.data)

/-- Python iteration `for x in j`: lists yield their elements, dicts their
keys (as strings), strings their characters (as 1-character strings);
other values raise `TypeError`. -/
def pyIter (j : Json) : PyM (List Json) :=
  match j with
  | .arr xs => .ok xs
  | .obj kvs => .ok (kvs.map fun kv => .str kv.1)
  | .str s => .ok (s.data.map fun c => .str (String.mk [c]))
  | _ => .error .typeError

/-- Python `j[k]` for a string key `k`: dict lookup (`KeyError` when absent),
`TypeError` on anything else. -/
def pyIndexStr (j : Json) (k : String) : PyM Json :=
  match j with
  | .obj kvs =>
      match Json.lookup kvs k with
      | some v => .ok v
      | none => .error .keyError
  | _ => .error .typeError

/-- Python `sep.join(xs)`: every element must be a string, else `TypeError`. -/
def pyJoinStrs (sep : String) (xs : List Json) : PyM String :=
  match xs with
  | [] => .ok ""
  | [.str s] => .ok s
  | .str s :: rest => do
      let r ← pyJoinStrs sep rest
      .ok (s ++ sep ++ r)
  | _ => .error .typeError

/-- `"\n".join` on plain Lean strings (used where all parts are known to be
strings). -/
def strJoin (sep : String) : List String → String
  | [] => ""
  | [x] => x
  | x :: xs => x ++ sep ++ strJoin sep xs

/-- Python `j > 0`: numbers compare numerically, booleans count as 0/1,
anything else raises `TypeError` (e.g. `"5" > 0`). -/
def pyGtZero (j : Json) : PyM Bool :=
  match j with
  | .num q => .ok (decide (0 < q))
  | .bool b => .ok b
  | _ => .error .typeError

/-- Equality of hashable Python values used as dict keys (Python hashes
`True` and `1` alike; lists/dicts never reach this comparison because
inserting them raises `TypeError` first). -/
def scalarKeyEq (a b : Json) : Bool :=
  match a, b with
  | .null, .null => true
  | .bool x, .bool y => x == y
  | .num x, .num y => x == y
  | .str x, .str y => x == y
  | .bool x, .num y => (if x then (1 : Rat) else 0) == y
  | .num x, .bool y => x == (if y then (1 : Rat) else 0)
  | _, _ => false

/-- Python `d[k] = v` on a dict with arbitrary (hashable) JSON keys:
replace in insertion position when the key is present, append otherwise;
unhashable keys raise `TypeError`. -/
def dictSet (d : List (Json × Json)) (k v : Json) : PyM (List (Json × Json)) :=
  match k with
  | .arr _ | .obj _ => .error .typeError
  | _ =>
      if d.any fun kv => scalarKeyEq kv.1 k then
        .ok (d.map fun kv => if scalarKeyEq kv.1 k then (kv.1, v) else kv)
      else
        .ok (d ++ [(k, v)])

/-- A GraphQL request as sent to the `graphql` endpoint:
`{"query": ..., "tenant": ...?}`. -/
structure GQLReq where
  query : String
  tenant : Option String

/-- Rendering parameters abstracting the pieces of Python string formatting
that have no clean Lean counterpart: `str(x)` on arbitrary values (exact
float repr), `json.dumps(x)`, and `float(s)` string parsing.  Theorems are
stated for every choice of these functions. -/
structure Render where
  pyStr : Json → String
  dumps : Json → String
  parseFloat : String → Option Rat

/-- Python `float(j)`: identity on numbers, 0/1 on booleans, string parsing
via the abstracted parser (`ValueError` when unparseable), `TypeError`
otherwise. -/
def pyFloat (R : Render) (j : Json) : PyM Rat :=
  match j with
  | .num q => .ok q
  | .bool b => .ok (if b then 1 else 0)
  | .str s =>
      match R.parseFloat s with
      | some q => .ok q
      | none => .error .valueError
  | _ => .error .typeError

/-- `json.dumps` of a list of strings (property names contain no characters
needing JSON escaping in this client). -/
def dumpsStrList (xs : List String) : String :=
  "[" ++ strJoin ", " (xs.map fun s => "\"" ++ s ++ "\"") ++ "]"

/-- Python truthiness of an optional tenant string; `execute_graphql`
requests carry the tenant only when it is truthy
(`if tenant: graphql_query["tenant"] = tenant`). -/
def pyTenant (tenant : Option String) : Option String :=
  match tenant with
  | some t => if t = "" then none else some t
  | none => none

/-- Modelled from the spec: `ObjectsClient.execute_graphql` is called
throughout `utils/api/search.py` (and monkey-patched by the tests) but is
defined nowhere in the repository's source.  Per the spec's wire contract,
the `graphql` endpoint accepts `{query: string, tenant?: string}` and
returns `{data?, errors?}`; the network is an oracle, so the call is the
oracle applied to the request. -/
def execute_graphql (exec : GQLReq → Json) (req : GQLReq) : Json :=
  exec req

/-! ## `utils/api/client.py` — `WeaviateClient._handle_response` -/

/-- An HTTP response body: empty, valid JSON, or unparseable
(`response.json()` raises `ValueError` on the last two's failure cases). -/
inductive Body where
  | empty
  | json (j : Json)
  | invalid

/-- `requests.Response.raise_for_status` raises `HTTPError` exactly for
4xx and 5xx status codes. -/
def raiseForStatus (status : Nat) : Bool :=
  400 ≤ status && status < 600

namespace WeaviateClient

/-- The comprehension
`[err.get("message", str(err)) for err in error_data["error"]]`. -/
def bodyErrMsgs (R : Render) : List Json → PyM (List Json)
  | [] => .ok []
  | err :: rest => do
      let m ← err.pyGetD "message" (.str (R.pyStr err))
      let ms ← bodyErrMsgs R rest
      .ok (m :: ms)

/-- The message-refinement `try` block of `_handle_response`'s error path:
parse the body, prefer `message`, else joined `error[].message`.
A `ValueError` (unparseable/empty body) is caught by the caller; other
exceptions (e.g. `TypeError` from `in` on a number) propagate. -/
def errorMsgFromBody (R : Render) (body : Body) : PyM (Option String) :=
  match body with
  | .empty => .error .valueError
  | .invalid => .error .valueError
  | .json error_data => do
      let hasMsg ← Json.pyIn "message" error_data
      if hasMsg then do
        let m ← pyIndexStr error_data "message"
        return some ("API Error: " ++ R.pyStr m)
      else do
        let hasErr ← Json.pyIn "error" error_data
        if hasErr then do
          let e ← pyIndexStr error_data "error"
          match e with
          | .arr errs => do
              let parts ← bodyErrMsgs R errs
              let joined ← pyJoinStrs "; " parts
              return some ("API Error: " ++ joined)
          | _ => return none
        else
          return none

/-- `WeaviateClient._handle_response`: on 2xx (in fact, on every status for
which `raise_for_status` does not raise) return the parsed JSON body, `{}`
when the body is empty; on 4xx/5xx raise an `Exception` whose message is
extracted from the body when possible, else the `HTTPError`'s own string
(`errStr status` abstracts `str(e)` for the `HTTPError e`). -/
def handle_response (R : Render) (errStr : Nat → String) (status : Nat)
    (body : Body) : PyM Json :=
  if raiseForStatus status then
    let error_msg := "API Error: " ++ errStr status
    match errorMsgFromBody R body with
    | .ok (some m) => .error (.exception m)
    | .ok none => .error (.exception error_msg)
    | .error .valueError => .error (.exception error_msg)
    | .error e => .error e
  else
    match body with
    | .empty => .ok (.obj [])
    | .json j => .ok j
    | .invalid => .error .valueError

end WeaviateClient

/-! ## `utils/api/objects.py` — `ObjectsClient.get_collection_count` -/

namespace ObjectsClient

/-- The `.get` chain
`response.get("data", {}).get("Aggregate", {}).get(class_name, [])`. -/
def aggChain (resp : Json) (class_name : String) : PyM Json := do
  let d ← resp.pyGetD "data" (.obj [])
  let a ← d.pyGetD "Aggregate" (.obj [])
  a.pyGetD class_name (.arr [])

/-- The count-extraction `try` body of `get_collection_count`:
the aggregate entry must be a list with at least one element, whose
`meta.count` is returned (each `.get` defaulting towards 0). -/
def countInner (resp : Json) (class_name : String) : PyM Json := do
  let class_data ← aggChain resp class_name
  match class_data with
  | .arr (x :: _) => do
      let m ← x.pyGetD "meta" (.obj [])
      m.pyGetD "count" (.num 0)
  | .arr [] => return .num 0
  | _ => return .num 0

/-- `ObjectsClient.get_collection_count` given the (possibly raising) result
of `self.post("graphql", ...)`: extract the count, turning `KeyError`,
`AttributeError` and `IndexError` into 0; other exceptions propagate. -/
def get_collection_count (resp : PyM Json) (class_name : String) : PyM Json :=
  match resp with
  | .error e => .error e
  | .ok r =>
      match countInner r class_name with
      | .ok v => .ok v
      | .error .keyError => .ok (.num 0)
      | .error .attributeError => .ok (.num 0)
      | .error .indexError => .ok (.num 0)
      | .error e => .error e

end ObjectsClient

/-! ## `utils/api/schema.py` — `SchemaClient` -/

namespace SchemaClient

/-- `SchemaClient.get_schemas`: `GET schema`, then `.get("classes", [])`. -/
def get_schemas (schemaResp : PyM Json) : PyM Json := do
  let response ← schemaResp
  response.pyGetD "classes" (.arr [])

/-- `next((s for s in schemas if s.get("class") == class_name), None)`. -/
def findSchema (class_name : String) : List Json → PyM (Option Json)
  | [] => .ok none
  | s :: rest => do
      let c ← s.pyGetD "class" .null
      if c.pyEqStr class_name then .ok (some s) else findSchema class_name rest

/-- `schema.get("vectorizer") not in [None, "none"]`. -/
def vectorizerSet (v : Json) : Bool :=
  match v with
  | .null => false
  | .str "none" => false
  | _ => true

/-- `SchemaClient.has_vectorizer`: look the class up in `GET schema`'s
`classes`; any exception (including a failing fetch) yields `False`. -/
def has_vectorizer (schemaResp : PyM Json) (class_name : String) : Bool :=
  let inner : PyM Bool := do
    let schemas ← get_schemas schemaResp
    let it ← pyIter schemas
    let sc ← findSchema class_name it
    match sc with
    | some s =>
        if s.pyTruthy then do
          let v ← s.pyGetD "vectorizer" .null
          return vectorizerSet v
        else
          return false
    | none => return false
  match inner with
  | .ok b => b
  | .error _ => false

end SchemaClient

/-! ## `utils/api/search.py` — `SearchClient` -/

namespace SearchClient

/-- The GraphQL schema-introspection query literal of
`SearchClient.get_schemas`. -/
def schemaQuery : String :=
  "\n            \x7b\n              Schema \x7b\n                objects \x7b\n                  class\n                  vectorizer\n                  properties \x7b\n                    name\n                    dataType\n                  \x7d\n                \x7d\n              \x7d\n            \x7d\n            "

/-- `SearchClient.get_schemas`: execute the schema query and unwrap
`response.get("data", {}).get("Schema", {}).get("objects", [])`. -/
def get_schemas (exec : GQLReq → Json) : PyM Json := do
  let response := execute_graphql exec ⟨schemaQuery, none⟩
  let d ← response.pyGetD "data" (.obj [])
  let s ← d.pyGetD "Schema" (.obj [])
  s.pyGetD "objects" (.arr [])

/-- The `for schema in schemas` loop of `SearchClient.has_vectorizer`:
on the first entry whose `class` equals the name, return
`schema.get("vectorizer", "none") != "none"`. -/
def hvLoop (class_name : String) : List Json → PyM Bool
  | [] => .ok false
  | s :: rest => do
      let c ← s.pyGetD "class" .null
      if c.pyEqStr class_name then do
        let v ← s.pyGetD "vectorizer" (.str "none")
        return !(v.pyEqStr "none")
      else hvLoop class_name rest

/-- `SearchClient.has_vectorizer` (exceptions are NOT caught here, unlike
the `SchemaClient` variant). -/
def has_vectorizer (exec : GQLReq → Json) (class_name : String) : PyM Bool := do
  let schemas ← get_schemas exec
  let it ← pyIter schemas
  hvLoop class_name it

/-- The client-side matching loop of `search_objects`: collect objects whose
`text` value is truthy and contains the query case-insensitively; after each
object, stop once the match count has reached `limit`. -/
def matchLoop (query_text : String) (limit : Nat) :
    List Json → List Json → PyM (List Json)
  | [], acc => .ok acc
  | o :: rest, acc => do
      let properties ← o.pyGetD "text" (.str "")
      let acc' ←
        if properties.pyTruthy then do
          let low ← properties.pyLower
          if strContains low (strLower query_text) then
            pure (acc ++ [o])
          else
            pure acc
        else
          pure acc
      if limit ≤ acc'.length then .ok acc' else matchLoop query_text limit rest acc'

/-- `obj["_additional"] = {"score": 1.0}` applied to every result object. -/
def addScore : List Json → PyM (List Json)
  | [] => .ok []
  | o :: rest => do
      let o' ← o.pySetKey "_additional" (.obj [("score", .num 1)])
      let rest' ← addScore rest
      .ok (o' :: rest')

/-- `SearchClient.search_objects`.  `objectsAt limit` is the oracle for
`GET objects` with the given limit (class/tenant/offset fixed);
the Python function implicitly returns `None` (here `none`) when the
collection has a vectorizer and query text is non-empty, since that branch
is only a `pass`. -/
def search_objects (exec : GQLReq → Json) (objectsAt : Nat → Json)
    (class_name query_text : String) (limit : Nat) : PyM (Option Json) := do
  let hv ← has_vectorizer exec class_name
  if hv && query_text != "" then
    return none
  else if !hv && query_text != "" then do
    let all_objects := objectsAt 1000
    let d ← all_objects.pyGetD "data" (.obj [])
    let g ← d.pyGetD "Get" (.obj [])
    let lst ← g.pyGetD class_name (.arr [])
    let it ← pyIter lst
    let matched ← matchLoop query_text limit it []
    let scored ← addScore (matched.take limit)
    return some (.obj [("data", .obj [("Get", .obj [(class_name, .arr scored)])])])
  else do
    let response := objectsAt limit
    let hasErr ← Json.pyIn "error" response
    if hasErr then do
      let e ← pyIndexStr response "error"
      return some (.obj [("error", e), ("objects", .arr [])])
    else
      return some response

/-- The values stored in the `hybrid_params` dict (the key determines the
formatting branch in the rendering loop). -/
inductive HybridVal where
  | qstr (s : String)
  | alphaV (q : Rat)
  | fus (s : String)
  | vec (v : List Json)
  | props (ps : List String)

/-- Building the `hybrid_params` dict: `query`, `alpha`, `fusionType`,
then `vector` if provided, then `properties` if provided and non-empty. -/
def hybrid_params (query : String) (alpha : Rat) (fusion_type : String)
    (vector : Option (List Json)) (properties : Option (List String)) :
    List (String × HybridVal) :=
  [("query", .qstr query), ("alpha", .alphaV alpha), ("fusionType", .fus fusion_type)]
    ++ (match vector with
        | some v => [("vector", .vec v)]
        | none => [])
    ++ (match properties with
        | some ps => if 0 < ps.length then [("properties", .props ps)] else []
        | none => [])

/-- One iteration of the `for key, value in hybrid_params.items()` loop:
`query` is quoted, `alpha`/`fusionType` are interpolated raw, `vector` and
`properties` go through `json.dumps`. -/
def renderParam (R : Render) : String × HybridVal → String
  | (k, .qstr s) => "\n              " ++ k ++ ": \"" ++ s ++ "\""
  | (k, .alphaV q) => "\n              " ++ k ++ ": " ++ R.pyStr (.num q)
  | (k, .fus s) => "\n              " ++ k ++ ": " ++ s
  | (k, .vec v) => "\n              " ++ k ++ ": " ++ R.dumps (.arr v)
  | (k, .props ps) => "\n              " ++ k ++ ": " ++ dumpsStrList ps

/-- The accumulated `hybrid_params_str`. -/
def hybrid_params_str (R : Render) : List (String × HybridVal) → String
  | [] => ""
  | p :: rest => renderParam R p ++ hybrid_params_str R rest

/-- The `search_clause` f-string wrapping the hybrid parameters. -/
def search_clause (R : Render) (query : String) (alpha : Rat)
    (fusion_type : String) (vector : Option (List Json))
    (properties : Option (List String)) : String :=
  "\n        hybrid: \x7b"
    ++ hybrid_params_str R (hybrid_params query alpha fusion_type vector properties)
    ++ "\n        \x7d\n        "

/-- `f'where: {json.dumps(filter_obj)}' if filter_obj else ''`. -/
def whereStr (R : Render) (filter_obj : Option Json) : String :=
  match filter_obj with
  | some f => if f.pyTruthy then "where: " ++ R.dumps f else ""
  | none => ""

/-- `SearchClient._get_available_fields`: the property-name set of the first
schema entry whose `class` matches, as an insertion-ordered dedup list. -/
def pySetAdd (s : List Json) (x : Json) : PyM (List Json) :=
  match x with
  | .arr _ | .obj _ => .error .typeError
  | _ => .ok (if s.any fun y => scalarKeyEq y x then s else s ++ [x])

/-- `for prop in properties: fields.add(prop.get("name", ""))`. -/
def addNames : List Json → List Json → PyM (List Json)
  | [], acc => .ok acc
  | p :: rest, acc => do
      let n ← p.pyGetD "name" (.str "")
      let acc' ← pySetAdd acc n
      addNames rest acc'

/-- The schema scan of `_get_available_fields` (first matching class wins,
then `break`). -/
def availSearch (class_name : String) : List Json → PyM (List Json)
  | [] => .ok []
  | s :: rest => do
      let c ← s.pyGetD "class" .null
      if c.pyEqStr class_name then do
        let props ← s.pyGetD "properties" (.arr [])
        let it ← pyIter props
        addNames it []
      else availSearch class_name rest

def get_available_fields (exec : GQLReq → Json) (class_name : String) :
    PyM (List Json) := do
  let schemas ← get_schemas exec
  let it ← pyIter schemas
  availSearch class_name it

/-- `x in available_fields` for a string literal `x` (set membership is by
equality). -/
def setMem (s : List Json) (x : String) : Bool :=
  s.any fun y => y.pyEqStr x

/-- The field-selection policy applied to the introspected property set:
`text` first, then the known metadata fields, else all available fields,
else the single default `text`. -/
def fieldsFromAvailable (available : List Json) : List Json :=
  let f1 : List Json := if setMem available "text" then [.str "text"] else []
  let f2 : List Json :=
    ((["full_path", "chunk_index", "total_chunks", "ts"].filter
        fun f => setMem available f).map .str)
  let ftq := f1 ++ f2
  let ftq2 := if ftq.isEmpty && !available.isEmpty then available else ftq
  if ftq2.isEmpty then [.str "text"] else ftq2

/-- The hard-coded fallback when schema detection raises. -/
def defaultFields : List Json :=
  [.str "text", .str "full_path", .str "chunk_index", .str "total_chunks", .str "ts"]

/-- The `try` body of the field-detection block. -/
def detectFieldsInner (exec : GQLReq → Json) (class_name : String) :
    PyM (List Json) := do
  let available ← get_available_fields exec class_name
  return fieldsFromAvailable available

/-- The whole `if fields is None: try ... except ...` field-detection block
(shared verbatim between `hybrid_search`, `vector_search` and
`filter_objects` in the source). -/
def detect_fields (exec : GQLReq → Json) (class_name : String)
    (fields : Option (List String)) : List Json :=
  match fields with
  | some fl => fl.map .str
  | none =>
      match detectFieldsInner exec class_name with
      | .ok f => f
      | .error _ => defaultFields

/-- The hybrid-search GraphQL query f-string. -/
def hybridQueryStr (class_name : String) (limit : Nat)
    (ws sc fields_str : String) : String :=
  "\n            \x7b\n              Get \x7b\n                " ++ class_name
    ++ "(\n                  limit: " ++ toString limit
    ++ "\n                  " ++ ws
    ++ "\n                  " ++ sc
    ++ "\n                ) \x7b\n                  " ++ fields_str
    ++ "\n                  _additional \x7b\n                    id\n                    score\n                  \x7d\n                \x7d\n              \x7d\n            \x7d\n            "

/-- The GraphQL request built by `hybrid_search` (search clause, field
detection, query assembly, tenant attachment). -/
def hybridRequest (R : Render) (exec : GQLReq → Json)
    (class_name query : String) (alpha : Rat) (limit : Nat)
    (tenant : Option String) (filter_obj : Option Json)
    (vector : Option (List Json)) (fusion_type : String)
    (properties : Option (List String)) (fields : Option (List String)) :
    PyM GQLReq := do
  let sc := search_clause R query alpha fusion_type vector properties
  let ftq := detect_fields exec class_name fields
  let fields_str ← pyJoinStrs "\n                  " ftq
  return ⟨hybridQueryStr class_name limit (whereStr R filter_obj) sc fields_str,
          pyTenant tenant⟩

end SearchClient

namespace SearchClient

/-- The inner `for loc in locations` comprehension of the GraphQL-error
formatting loop. -/
def locLoop (R : Render) : List Json → PyM (List String)
  | [] => .ok []
  | loc :: rest => do
      let l ← loc.pyGetD "line" (.str "?")
      let c ← loc.pyGetD "column" (.str "?")
      let ms ← locLoop R rest
      .ok (("line " ++ R.pyStr l ++ ", column " ++ R.pyStr c) :: ms)

/-- One entry of the GraphQL-error formatting loop: message plus optional
line/column locations. -/
def formatError (R : Render) (e : Json) : PyM String := do
  let message ← e.pyGetD "message" (.str "Unknown error")
  let locations ← e.pyGetD "locations" (.arr [])
  if locations.pyTruthy then do
    let locs ← pyIter locations
    let parts ← locLoop R locs
    pure ("GraphQL error at " ++ strJoin ", " parts ++ ": " ++ R.pyStr message)
  else
    pure ("GraphQL error: " ++ R.pyStr message)

/-- The `for error in errors` loop collecting formatted messages. -/
def errLoop (R : Render) : List Json → PyM (List String)
  | [] => .ok []
  | e :: rest => do
      let m ← formatError R e
      let ms ← errLoop R rest
      .ok (m :: ms)

/-- The per-object normalization of the response-formatting loop:
id from `_additional.id` (default "Unknown"), properties = all keys except
`_additional`, additional = `{score: float(...)}` when a score is present. -/
def transformObj (R : Render) (o : Json) : PyM Json := do
  let add ← o.pyGetD "_additional" (.obj [])
  let obj_id ← add.pyGetD "id" (.str "Unknown")
  let props ←
    match o with
    | .obj kvs => .ok (kvs.filter fun kv => kv.1 ≠ "_additional")
    | _ => .error .attributeError
  let hasAdd ← Json.pyIn "_additional" o
  let additional ←
    if hasAdd then do
      let addv ← pyIndexStr o "_additional"
      let hasScore ← Json.pyIn "score" addv
      if hasScore then do
        let sv ← pyIndexStr addv "score"
        let f ← pyFloat R sv
        pure [("score", Json.num f)]
      else
        pure ([] : List (String × Json))
    else
      pure ([] : List (String × Json))
  return .obj [("id", obj_id), ("properties", .obj props),
               ("additional", .obj additional)]

/-- The `for obj in get_data[class_name]` normalization loop. -/
def transformLoop (R : Render) : List Json → PyM (List Json)
  | [] => .ok []
  | o :: rest => do
      let o' ← transformObj R o
      let rest' ← transformLoop R rest
      .ok (o' :: rest')

/-- The response-handling tail shared verbatim by `hybrid_search`
(lines 279-348) and `filter_objects` (lines 544-613): GraphQL errors are
checked first and returned as `{error, objects: []}`; a well-shaped `data`
is normalized object by object; anything else degrades to
`{objects: [], raw_response}` or `{objects: []}`. -/
def processGraphQLResponse (R : Render) (class_name : String)
    (response : Json) : PyM Json := do
  let hasErrs ←
    if response.pyTruthy then Json.pyIn "errors" response else pure false
  if hasErrs then do
    let errors ← pyIndexStr response "errors"
    let errList ← pyIter errors
    let msgs ← errLoop R errList
    let error_string := strJoin "\n" msgs
    return .obj [("error", .str error_string), ("objects", .arr [])]
  else do
    let cond ←
      if response.pyTruthy then do
        let hd ← Json.pyIn "data" response
        if hd then do
          let d ← pyIndexStr response "data"
          Json.pyIn "Get" d
        else
          pure false
      else
        pure false
    if cond then do
      let d ← pyIndexStr response "data"
      let get_data ← pyIndexStr d "Get"
      let hasCn ← Json.pyIn class_name get_data
      let cnVal ←
        if hasCn then pyIndexStr get_data class_name else pure .null
      if hasCn && cnVal.pyTruthy then do
        let items ← pyIter cnVal
        let objs ← transformLoop R items
        return .obj [("objects", .arr objs)]
      else
        return .obj [("objects", .arr [])]
    else
      return .obj [("objects", .arr []), ("raw_response", response)]

/-- `SearchClient.hybrid_search`: with an explicit vector the vectorizer
check is skipped; without one, a missing vectorizer falls back to
`search_objects`; otherwise the hybrid GraphQL query is executed and its
response normalized. -/
def hybrid_search (R : Render) (exec : GQLReq → Json) (objectsAt : Nat → Json)
    (class_name query : String) (alpha : Rat) (limit : Nat)
    (tenant : Option String) (filter_obj : Option Json)
    (vector : Option (List Json)) (fusion_type : String)
    (properties : Option (List String)) (fields : Option (List String)) :
    PyM (Option Json) := do
  let fallback ←
    match vector with
    | some _ => pure false
    | none => do
        let hv ← has_vectorizer exec class_name
        pure !hv
  if fallback then
    search_objects exec objectsAt class_name query limit
  else do
    let req ← hybridRequest R exec class_name query alpha limit tenant
      filter_obj vector fusion_type properties fields
    let response := execute_graphql exec req
    let out ← processGraphQLResponse R class_name response
    return some out

/-- The filter GraphQL query f-string (the `where` clause is always
present here). -/
def filterQueryStr (R : Render) (class_name : String) (limit : Nat)
    (filter_obj : Json) (fields_str : String) : String :=
  "\n            \x7b\n              Get \x7b\n                " ++ class_name
    ++ "(\n                  limit: " ++ toString limit
    ++ "\n                  where: " ++ R.dumps filter_obj
    ++ "\n                ) \x7b\n                  " ++ fields_str
    ++ "\n                  _additional \x7b\n                    id\n                    score\n                  \x7d\n                \x7d\n              \x7d\n            \x7d\n            "

/-- The GraphQL request built by `filter_objects`. -/
def filterRequest (R : Render) (exec : GQLReq → Json) (class_name : String)
    (filter_obj : Json) (limit : Nat) (tenant : Option String)
    (fields : Option (List String)) : PyM GQLReq := do
  let ftq := detect_fields exec class_name fields
  let fields_str ← pyJoinStrs "\n                  " ftq
  return ⟨filterQueryStr R class_name limit filter_obj fields_str,
          pyTenant tenant⟩

/-- `SearchClient.filter_objects`: collections without a vectorizer return
the raw object listing (client-side filtering is an unimplemented TODO);
otherwise the `where` query is executed and its response normalized. -/
def filter_objects (R : Render) (exec : GQLReq → Json) (objectsAt : Nat → Json)
    (class_name : String) (filter_obj : Json) (limit : Nat)
    (tenant : Option String) (fields : Option (List String)) : PyM Json := do
  let hv ← has_vectorizer exec class_name
  if !hv then
    return objectsAt 1000
  else do
    let req ← filterRequest R exec class_name filter_obj limit tenant fields
    let response := execute_graphql exec req
    processGraphQLResponse R class_name response

end SearchClient

/-! ## `utils/api/schema.py` — `get_collection_stats` and `get_shards` -/

namespace SchemaClient

/-- The initial `stats` dict of `get_collection_stats`. -/
def statsBase : List (String × Json) :=
  [("object_count", .num 0), ("meta", .obj []), ("shards", .arr []),
   ("replication", .obj [])]

/-- The inner `try` for the `GET schema/{class}` metadata: set `meta`,
then `replication`/`sharding` when the respective config keys exist. -/
def metaBranch (metaResp : PyM Json) (stats : List (String × Json)) :
    PyM (List (String × Json)) := do
  let meta ← metaResp
  let s1 := Json.assocSet stats "meta" meta
  let hasRepl ← Json.pyIn "replicationConfig" meta
  let s2 ←
    if hasRepl then do
      let r ← meta.pyGetD "replicationConfig" (.obj [])
      pure (Json.assocSet s1 "replication" r)
    else
      pure s1
  let hasShard ← Json.pyIn "shardingConfig" meta
  if hasShard then do
    let sh ← meta.pyGetD "shardingConfig" (.obj [])
    pure (Json.assocSet s2 "sharding" sh)
  else
    pure s2

/-- The fallback that mines `GET schema`'s class listing for metadata
(used both when the meta endpoint fails and when the count query raises). -/
def schemaMetaFallback (schemaResp : PyM Json) (class_name : String)
    (stats : List (String × Json)) : PyM (List (String × Json)) := do
  let schemas ← get_schemas schemaResp
  let it ← pyIter schemas
  let sc ← findSchema class_name it
  match sc with
  | some s =>
      if s.pyTruthy then do
        let s1 := Json.assocSet stats "meta" (.obj [("schema", s)])
        let hasRepl ← Json.pyIn "replicationConfig" s
        let s2 ←
          if hasRepl then do
            let r ← s.pyGetD "replicationConfig" (.obj [])
            pure (Json.assocSet s1 "replication" r)
          else
            pure s1
        let hasShard ← Json.pyIn "shardingConfig" s
        if hasShard then do
          let sh ← s.pyGetD "shardingConfig" (.obj [])
          pure (Json.assocSet s2 "sharding" sh)
        else
          pure s2
      else
        pure stats
  | none => pure stats

/-- `SchemaClient.get_collection_stats`, as a function of the four remote
responses it may consume (count query, `GET schema/{class}`, `GET schema`,
`GET schema/{class}/shards`); every sub-fetch degrades independently. -/
def get_collection_stats (countResp metaResp schemaResp shardsResp : PyM Json)
    (class_name : String) : Json :=
  let main : PyM (List (String × Json)) := do
    let c ← ObjectsClient.get_collection_count countResp class_name
    let s1 := Json.assocSet statsBase "object_count" c
    let s2 :=
      match metaBranch metaResp s1 with
      | .ok s => s
      | .error _ =>
          match schemaMetaFallback schemaResp class_name s1 with
          | .ok s => s
          | .error _ => s1
    let s3 :=
      match shardsResp with
      | .ok sh => Json.assocSet s2 "shards" sh
      | .error _ => s2
    pure s3
  match main with
  | .ok s => .obj s
  | .error _ =>
      match schemaMetaFallback schemaResp class_name statsBase with
      | .ok s => .obj s
      | .error _ => .obj statsBase

/-- The result of `get_shards`: either the normalized name-keyed mapping
(possibly with non-string scalar keys, as in Python) or the raw response
returned unchanged when it is not a list. -/
inductive ShardsResult where
  | dict (d : List (Json × Json))
  | raw (j : Json)

/-- The list-to-dict normalization loop of `get_shards`: dict entries are
keyed by their `name`, nameless dicts by a generated `shard_{index}` key,
non-dict entries are skipped. -/
def shardLoop : List Json → List (Json × Json) → PyM (List (Json × Json))
  | [], d => .ok d
  | s :: rest, d => do
      let d' ←
        match s with
        | .obj kvs =>
            match Json.lookup kvs "name" with
            | some nm => dictSet d nm (.obj kvs)
            | none => dictSet d (.str ("shard_" ++ toString d.length)) (.obj kvs)
        | _ => pure d
      shardLoop rest d'

/-- The `try` that overwrites a single shard's `objectCount` with the
authoritative total from `get_collection_stats`; any failure keeps the
dict as built. -/
def updateShardCount (countResp metaResp schemaResp shardsResp : PyM Json)
    (class_name : String) (shard_dict : List (Json × Json)) :
    List (Json × Json) :=
  let inner : PyM (List (Json × Json)) := do
    let stats := get_collection_stats countResp metaResp schemaResp shardsResp
      class_name
    let total ← stats.pyGetD "object_count" (.num 0)
    if shard_dict.length == 1 then do
      let gt ← pyGtZero total
      if gt then
        match shard_dict with
        | [(k, v)] => do
            let v' ← v.pySetKey "objectCount" total
            pure [(k, v')]
        | _ => pure shard_dict
      else
        pure shard_dict
    else
      pure shard_dict
  match inner with
  | .ok d => d
  | .error _ => shard_dict

/-- `SchemaClient.get_shards`: a list response is normalized into a
name-keyed mapping (with the single-shard count overwrite); a non-list
response is returned as-is; any exception yields the empty mapping. -/
def get_shards (shardsResp countResp metaResp schemaResp : PyM Json)
    (class_name : String) : ShardsResult :=
  let inner : PyM ShardsResult := do
    let response ← shardsResp
    match response with
    | .arr shards => do
        let d ← shardLoop shards []
        pure (.dict (updateShardCount countResp metaResp schemaResp shardsResp
          class_name d))
    | _ => pure (.raw response)
  match inner with
  | .ok r => r
  | .error _ => .dict []

end SchemaClient

/-! ## `commands/search.py` — the `search hybrid` command's pre-network phase -/

namespace Commands

/-- The observable outcome of the `search hybrid` command before any network
traffic: one of the local early-return errors, or the call into
`api.hybrid_search` (the only outcome that reaches the server). -/
inductive HybridCmdOutcome where
  | errFilterParse
  | errVectorLoad
  | errVectorNotList
  | errFusionType
  | callApi (filter_obj : Option Json) (vector : Option (List Json))
      (props : Option (List String)) (fusion_type : String)

/-- The argument-processing prefix of the `search hybrid` command
(`commands/search.py`): parse the filter JSON, split the properties list,
load the vector file, then validate `fusion_type` against the two accepted
values — all before `api.hybrid_search` is invoked. -/
def search_hybrid (filter_json : Option (PyM Json)) (properties : Option String)
    (vector_file : Option (PyM Json)) (fusion_type : String) :
    HybridCmdOutcome :=
  match filter_json with
  | some (.error _) => .errFilterParse
  | _ =>
    let filter_obj : Option Json :=
      match filter_json with
      | some (.ok j) => some j
      | _ => none
    let props_list : Option (List String) :=
      match properties with
      | some p => if p = "" then none else some ((p.splitOn ",").map String.trim)
      | none => none
    let vecStep : Except HybridCmdOutcome (Option (List Json)) :=
      match vector_file with
      | none => .ok none
      | some (.error _) => .error .errVectorLoad
      | some (.ok (.arr v)) => .ok (some v)
      | some (.ok _) => .error .errVectorNotList
    match vecStep with
    | .error o => o
    | .ok vector =>
        if fusion_type == "rankedFusion" || fusion_type == "relativeScoreFusion"
        then
          .callApi filter_obj vector props_list fusion_type
        else
          .errFusionType

end Commands

/-! ## Concrete instances used in scenario evaluations -/

/-- A trivial rendering instance for concrete evaluations. -/
def R0 : Render := ⟨fun _ => "", fun _ => "", fun _ => none⟩

/-- A concrete `str(HTTPError)` stand-in. -/
def errStr0 : Nat → String := fun status => toString status ++ " Error"

/-- A GraphQL oracle returning an empty object for every request. -/
def exec0 : GQLReq → Json := fun _ => .obj []

/-- Schema-query response in which collection `Docs` has vectorizer
`"none"`. -/
def docsSchemaData : Json :=
  .obj [("data", .obj [("Schema", .obj [("objects",
    .arr [.obj [("class", .str "Docs"), ("vectorizer", .str "none")]])])])]

def execDocs : GQLReq → Json := fun _ => docsSchemaData

/-- Object listing for `Docs`: texts `"cats"`, `"dogs"`, `"cats and dogs"`. -/
def docsObjectsAt : Nat → Json := fun _ =>
  .obj [("data", .obj [("Get", .obj [("Docs", .arr
    [.obj [("text", .str "cats")],
     .obj [("text", .str "dogs")],
     .obj [("text", .str "cats and dogs")]])])])]

/-- Schema-query response in which collection `C` has a vectorizer. -/
def vecSchemaData : Json :=
  .obj [("data", .obj [("Schema", .obj [("objects",
    .arr [.obj [("class", .str "C"),
                ("vectorizer", .str "text2vec-contextionary")]])])])]

/-- A GraphQL error response that also carries a `data` key (errors must be
detected first). -/
def errResponse : Json :=
  .obj [("errors", .arr [.obj
          [("message", .str "Cannot query field"),
           ("locations", .arr [.obj [("line", .num 17), ("column", .num 19)]])]]),
        ("data", .obj [("Get", .obj [("C", .arr [])])])]

/-- Oracle: the schema query sees a vectorized `C`; everything else gets the
error response. -/
def execVecErr : GQLReq → Json := fun req =>
  if req.query = SearchClient.schemaQuery then vecSchemaData else errResponse

/-- A GraphQL response whose `errors` array is empty. -/
def emptyErrorsResponse : Json := .obj [("errors", .arr [])]

def execEmptyErrors : GQLReq → Json := fun _ => emptyErrorsResponse

/-- A well-shaped hybrid/filter `data` response with two objects: one with
`_additional.id`/`score`, one with no `_additional` at all. -/
def dataResponse : Json :=
  .obj [("data", .obj [("Get", .obj [("C", .arr
    [.obj [("text", .str "hello"),
           ("_additional", .obj [("id", .str "abc"), ("score", .num (1/2))])],
     .obj [("text", .str "world")]])])])]

def execData : GQLReq → Json := fun _ => dataResponse

/-- Schema-query response in which collection `C` exists but has an empty
property list. -/
def emptyPropsSchemaData : Json :=
  .obj [("data", .obj [("Schema", .obj [("objects",
    .arr [.obj [("class", .str "C"), ("vectorizer", .str "none"),
                ("properties", .arr [])]])])])]

def execEmptyProps : GQLReq → Json := fun _ => emptyPropsSchemaData

/-- Schema-query response in which collection `C` has the single property
`title`. -/
def titleSchemaData : Json :=
  .obj [("data", .obj [("Schema", .obj [("objects",
    .arr [.obj [("class", .str "C"), ("vectorizer", .str "none"),
                ("properties", .arr [.obj [("name", .str "title")]])]])])])]

def execTitle : GQLReq → Json := fun _ => titleSchemaData

/-- Aggregate-count response reporting 42 objects for class `C`. -/
def countResponse42 : Json :=
  .obj [("data", .obj [("Aggregate", .obj [("C",
    .arr [.obj [("meta", .obj [("count", .num 42)])]])])])]

/-- Aggregate-count response with an empty per-class entry list. -/
def aggEmptyResponse : Json :=
  .obj [("data", .obj [("Aggregate", .obj [("C", .arr [])])])]

/-- The raw list-shaped shards response of the spec's `getShards` example. -/
def shardListResponse : Json :=
  .arr [.obj [("name", .str "shard1"), ("objectCount", .str "5")]]

/-- The query string of the hybrid request used in concrete evaluations
(class `C`, query `q`, alpha 1, limit 3, vector `[1]`, fields `["text"]`). -/
def witnessReqQuery : String :=
  SearchClient.hybridQueryStr "C" 3 ""
    (SearchClient.search_clause R0 "q" 1 "rankedFusion" (some [Json.num 1]) none)
    "text"

/-- The query string of the filter request used in concrete evaluations. -/
def witnessFilterQuery : String :=
  SearchClient.filterQueryStr R0 "C" 3 (.obj [("path", .str "x")]) "text"

/-! ## Spec-side predicates used in the theorems -/

/-- `mid` occurs as a substring of `s`, witnessed by an explicit split. -/
def InStr (mid s : String) : Prop :=
  ∃ pre post, s = pre ++ mid ++ post

/-- Well-formedness of one GraphQL error entry as processed by the error
loop: a dict whose `locations`, if present and truthy, is a list of dicts. -/
def ErrEntryOK (e : Json) : Prop :=
  ∃ ekvs, e = .obj ekvs ∧
    ∀ v, Json.lookup ekvs "locations" = some v →
      v.pyTruthy = false ∨ ∃ ls, v = .arr ls ∧ ∀ l ∈ ls, ∃ lk, l = .obj lk

/-- Well-formedness of a raw result object for normalization: a dict whose
`_additional`, if present, is a dict whose `score`, if present, is a
number. -/
def RawObjOK (o : Json) : Prop :=
  ∃ kvs, o = .obj kvs ∧
    ∀ a, Json.lookup kvs "_additional" = some a →
      ∃ akvs, a = .obj akvs ∧
        ∀ s, Json.lookup akvs "score" = some s → ∃ q, s = .num q

/-- The relation between a raw GraphQL result object and its normalized
form: exactly the keys `id`/`properties`/`additional`; properties are the
raw keys minus `_additional` (so `_additional` is never among them); the id
comes from `_additional.id` or defaults to `"Unknown"`; `additional` holds
a `score` exactly when the raw `_additional` did. -/
def NormalizedFrom (raw out : Json) : Prop :=
  ∃ kvs, raw = .obj kvs ∧
  ∃ idv akvs,
    out = .obj [("id", idv),
                ("properties", .obj (kvs.filter fun kv => kv.1 ≠ "_additional")),
                ("additional", .obj akvs)] ∧
    Json.lookup (kvs.filter fun kv => kv.1 ≠ "_additional") "_additional"
      = none ∧
    (match Json.lookup kvs "_additional" with
     | some (.obj akvs0) =>
         (match Json.lookup akvs0 "id" with
          | some i => idv = i
          | none => idv = .str "Unknown") ∧
         (match Json.lookup akvs0 "score" with
          | some (.num q) => akvs = [("score", .num q)]
          | some _ => True
          | none => akvs = [])
     | some _ => True
     | none => idv = .str "Unknown" ∧ akvs = [])

/-- The conclusion of the client-side text search: the object carries a text
field containing the query case-insensitively and the uniform score 1.0. -/
def MatchedResult (query_text : String) (m : Json) : Prop :=
  ∃ kvs t, m = .obj kvs ∧
    Json.lookup kvs "text" = some (.str t) ∧
    Json.lookup kvs "_additional" = some (.obj [("score", .num 1)]) ∧
    strContains (strLower t) (strLower query_text) = true

/-- The matched-object invariant carried through the client-side loop. -/
def MatchedCore (query_text : String) (m : Json) : Prop :=
  ∃ kvs t, m = .obj kvs ∧
    Json.lookup kvs "text" = some (.str t) ∧
    strContains (strLower t) (strLower query_text) = true

/-! ## Helper lemmas -/

theorem pym_bind_ok {α β : Type} (a : α) (g : α → PyM β) :
    (Except.ok a : PyM α) >>= g = g a := rfl

theorem pym_bind_err {α β : Type} (e : PyErr) (g : α → PyM β) :
    (Except.error e : PyM α) >>= g = .error e := rfl

theorem lookup_assocSet_self (kvs : List (String × Json)) (k : String)
    (v : Json) : Json.lookup (Json.assocSet kvs k v) k = some v := by
  induction kvs with
  | nil => simp [Json.assocSet, Json.lookup]
  | cons kv rest ih =>
      by_cases h : kv.1 = k
      · simp [Json.assocSet, Json.lookup, h]
      · simpa [Json.assocSet, Json.lookup, h] using ih

theorem lookup_assocSet_ne (kvs : List (String × Json)) (k k' : String)
    (v : Json) (h : k' ≠ k) :
    Json.lookup (Json.assocSet kvs k v) k' = Json.lookup kvs k' := by
  induction kvs with
  | nil => simp [Json.assocSet, Json.lookup, Ne.symm h]
  | cons kv rest ih =>
      obtain ⟨k1, v1⟩ := kv
      by_cases h1 : k1 = k
      · subst h1
        simp [Json.assocSet, Json.lookup, Ne.symm h]
      · simp only [Json.assocSet, h1, if_false]
        by_cases h2 : k1 = k'
        · simp [Json.lookup, h2]
        · simp [Json.lookup, h2, ih]

theorem lookup_filter_ne (kvs : List (String × Json)) (k : String) :
    Json.lookup (kvs.filter fun kv => kv.1 ≠ k) k = none := by
  induction kvs with
  | nil => simp [Json.lookup]
  | cons kv rest ih =>
      by_cases h : kv.1 = k
      · simpa [List.filter, h] using ih
      · simp only [List.filter, h]
        simpa [Json.lookup, h] using ih

theorem pyEqStr_eq {j : Json} {s : String} (h : j.pyEqStr s = true) :
    j = .str s := by
  cases j <;> simp [Json.pyEqStr] at h
  simp [h]

theorem lookup_isSome_ne_nil {kvs : List (String × Json)} {k : String}
    {v : Json} (h : Json.lookup kvs k = some v) : kvs ≠ [] := by
  intro he
  subst he
  simp [Json.lookup] at h

theorem append_ne_empty_left {a b : String} (ha : a ≠ "") : a ++ b ≠ "" := by
  intro h
  apply ha
  have hl := congrArg String.length h
  rw [String.length_append] at hl
  have h0 : ("" : String).length = 0 := rfl
  rw [h0] at hl
  have : a.length = 0 := by omega
  cases a with
  | mk data =>
      cases data with
      | nil => rfl
      | cons c cs => simp [String.length, List.length] at this

theorem strJoin_cons_ne_empty {sep m : String} {tl : List String}
    (hm : m ≠ "") : strJoin sep (m :: tl) ≠ "" := by
  cases tl with
  | nil => simpa [strJoin] using hm
  | cons x xs =>
      simp only [strJoin]
      exact append_ne_empty_left (append_ne_empty_left hm)

theorem inStr_here (mid pre post : String) : InStr mid (pre ++ mid ++ post) :=
  ⟨pre, post, rfl⟩

theorem inStr_left (t : String) {mid s : String} (h : InStr mid s) :
    InStr mid (t ++ s) := by
  obtain ⟨pre, post, rfl⟩ := h
  exact ⟨t ++ pre, post, by simp [String.append_assoc]⟩

theorem inStr_right (t : String) {mid s : String} (h : InStr mid s) :
    InStr mid (s ++ t) := by
  obtain ⟨pre, post, rfl⟩ := h
  exact ⟨pre, post ++ t, by simp [String.append_assoc]⟩

theorem pym_pure {α : Type} (a : α) : (pure a : PyM α) = .ok a := rfl


theorem pym_bind_eq_ok {α β : Type} {x : PyM α} {f : α → PyM β} {b : β} :
    x >>= f = .ok b ↔ ∃ a, x = .ok a ∧ f a = .ok b := by
  cases x with
  | error e => simp [pym_bind_err]
  | ok a => simp [pym_bind_ok]

theorem matchLoop_sound (q : String) (l : Nat) (objs : List Json) :
    ∀ acc out, SearchClient.matchLoop q l objs acc = .ok out →
      ∀ m ∈ out, m ∈ acc ∨ MatchedCore q m := by
  induction objs with
  | nil =>
      intro acc out h m hm
      simp only [SearchClient.matchLoop] at h
      cases h
      exact Or.inl hm
  | cons o rest ih =>
      intro acc out h m hm
      simp only [SearchClient.matchLoop, pym_bind_eq_ok] at h
      obtain ⟨properties, hp, hrest⟩ := h
      have tail : ∀ acc', (∀ x ∈ acc', x ∈ acc ∨ MatchedCore q x) →
          (if l ≤ acc'.length then (.ok acc' : PyM (List Json))
           else SearchClient.matchLoop q l rest acc') = .ok out →
          m ∈ acc ∨ MatchedCore q m := by
        intro acc' hsub h'
        by_cases hl : l ≤ acc'.length
        · rw [if_pos hl] at h'
          cases h'
          exact hsub m hm
        · rw [if_neg hl] at h'
          rcases ih acc' out h' m hm with h1 | h1
          · exact hsub m h1
          · exact Or.inr h1
      cases o with
      | null => simp [Json.pyGetD] at hp
      | bool b => simp [Json.pyGetD] at hp
      | num n => simp [Json.pyGetD] at hp
      | str s => simp [Json.pyGetD] at hp
      | arr xs => simp [Json.pyGetD] at hp
      | obj kvs =>
          simp only [Json.pyGetD, Except.ok.injEq] at hp
          subst hp
          cases hlk : Json.lookup kvs "text" with
          | none =>
              rw [hlk, Option.getD_none] at hrest
              rw [if_neg (by decide)] at hrest
              rw [pym_pure, pym_bind_ok] at hrest
              exact tail acc (fun x hx => Or.inl hx) hrest
          | some v =>
              rw [hlk, Option.getD_some] at hrest
              cases hvt : v.pyTruthy with
              | false =>
                  rw [if_neg (by rw [hvt]; exact Bool.false_ne_true)] at hrest
                  rw [pym_pure, pym_bind_ok] at hrest
                  exact tail acc (fun x hx => Or.inl hx) hrest
              | true =>
                  rw [if_pos hvt] at hrest
                  rw [pym_bind_eq_ok] at hrest
                  obtain ⟨low, hlow, hif⟩ := hrest
                  cases v with
                  | str t =>
                      simp only [Json.pyLower, Except.ok.injEq] at hlow
                      subst hlow
                      by_cases hc : strContains (strLower t) (strLower q) = true
                      · rw [if_pos hc, pym_pure, pym_bind_ok] at hif
                        refine tail (acc ++ [.obj kvs]) ?_ hif
                        intro x hx
                        rcases List.mem_append.1 hx with h1 | h1
                        · exact Or.inl h1
                        · rcases List.mem_singleton.1 h1 with rfl
                          exact Or.inr ⟨kvs, t, rfl, hlk, hc⟩
                      · rw [if_neg hc, pym_pure, pym_bind_ok] at hif
                        exact tail acc (fun x hx => Or.inl hx) hif
                  | null => simp [Json.pyLower] at hlow
                  | bool b => simp [Json.pyLower] at hlow
                  | num n => simp [Json.pyLower] at hlow
                  | arr xs => simp [Json.pyLower] at hlow
                  | obj kvs2 => simp [Json.pyLower] at hlow

theorem addScore_sound (objs : List Json) :
    ∀ out, SearchClient.addScore objs = .ok out →
      ∀ m ∈ out, ∃ o ∈ objs, ∃ kvs, o = .obj kvs ∧
        m = .obj (Json.assocSet kvs "_additional" (.obj [("score", .num 1)])) := by
  induction objs with
  | nil =>
      intro out h m hm
      simp only [SearchClient.addScore] at h
      cases h
      simp at hm
  | cons o rest ih =>
      intro out h m hm
      simp only [SearchClient.addScore, pym_bind_eq_ok] at h
      obtain ⟨o', ho', rest', hrest', hout⟩ := h
      cases hout
      rcases List.mem_cons.1 hm with rfl | h1
      · cases o with
        | obj kvs =>
            simp only [Json.pySetKey, Except.ok.injEq] at ho'
            exact ⟨.obj kvs, List.mem_cons_self _ _, kvs, rfl, ho'.symm⟩
        | null => simp [Json.pySetKey] at ho'
        | bool b => simp [Json.pySetKey] at ho'
        | num n => simp [Json.pySetKey] at ho'
        | str s => simp [Json.pySetKey] at ho'
        | arr xs => simp [Json.pySetKey] at ho'
      · rcases ih rest' hrest' m h1 with ⟨o2, ho2, kvs2, he1, he2⟩
        exact ⟨o2, List.mem_cons_of_mem _ ho2, kvs2, he1, he2⟩

/-- Claim C1: for a collection without a vectorizer and a non-empty query,
`search_objects` performs the client-side text search: whenever it returns
successfully, the result is the Weaviate-shaped `data.Get.<class>` wrapper
whose objects all carry a `text` field containing the query
case-insensitively and the uniform score 1.0. -/
theorem search_objects_no_vectorizer_text_match
    (exec : GQLReq → Json) (objectsAt : Nat → Json) (cn q : String)
    (limit : Nat) (res : Option Json)
    (hq : q ≠ "")
    (hv : SearchClient.has_vectorizer exec cn = .ok false)
    (hok : SearchClient.search_objects exec objectsAt cn q limit = .ok res) :
    ∃ scored,
      res = some (.obj [("data", .obj [("Get", .obj [(cn, .arr scored)])])]) ∧
      ∀ m ∈ scored, MatchedResult q m := by
  have hq' : (q != "") = true := by simp [bne_iff_ne, hq]
  unfold SearchClient.search_objects at hok
  rw [pym_bind_eq_ok] at hok
  obtain ⟨hvv, hv1, hok⟩ := hok
  rw [hv] at hv1
  cases hv1
  rw [if_neg (by simp)] at hok
  rw [if_pos (by simp [hq'])] at hok
  rw [pym_bind_eq_ok] at hok
  obtain ⟨d, hd, hok⟩ := hok
  rw [pym_bind_eq_ok] at hok
  obtain ⟨g, hg, hok⟩ := hok
  rw [pym_bind_eq_ok] at hok
  obtain ⟨lst, hlst, hok⟩ := hok
  rw [pym_bind_eq_ok] at hok
  obtain ⟨items, hit, hok⟩ := hok
  rw [pym_bind_eq_ok] at hok
  obtain ⟨matched, hml, hok⟩ := hok
  rw [pym_bind_eq_ok] at hok
  obtain ⟨scored, hsc, hfin⟩ := hok
  rw [pym_pure] at hfin
  cases hfin
  refine ⟨scored, rfl, ?_⟩
  intro m hm
  rcases addScore_sound (matched.take limit) scored hsc m hm with
    ⟨o, ho, kvs, rfl, rfl⟩
  rcases matchLoop_sound q limit items [] matched hml _ (List.take_subset _ _ ho)
    with h1 | h1
  · simp at h1
  · rcases h1 with ⟨kvs', t, heq, hlkt, hcont⟩
    rcases Json.obj.inj heq with rfl
    refine ⟨Json.assocSet kvs "_additional" (.obj [("score", .num 1)]), t, rfl,
      ?_, ?_, hcont⟩
    · rw [lookup_assocSet_ne _ _ _ _ (by decide)]
      exact hlkt
    · exact lookup_assocSet_self _ _ _

/-- Claim C1, scenario: collection `Docs` has vectorizer "none"; the object
listing has texts "cats", "dogs", "cats and dogs"; searching "cats" returns
exactly the 1st and 3rd objects, each scored 1.0 (witness discharging the
theorem's hypotheses at this input). -/
theorem search_objects_no_vectorizer_text_match_witness :
    ("cats" : String) ≠ "" ∧
    SearchClient.has_vectorizer execDocs "Docs" = .ok false ∧
    SearchClient.search_objects execDocs docsObjectsAt "Docs" "cats" 10 =
      .ok (some (.obj [("data", .obj [("Get", .obj [("Docs", .arr
        [.obj [("text", .str "cats"),
               ("_additional", .obj [("score", .num 1)])],
         .obj [("text", .str "cats and dogs"),
               ("_additional", .obj [("score", .num 1)])]])])])])) ∧
    (∃ scored,
      (some (.obj [("data", .obj [("Get", .obj [("Docs", .arr
        [.obj [("text", .str "cats"),
               ("_additional", .obj [("score", .num 1)])],
         .obj [("text", .str "cats and dogs"),
               ("_additional", .obj [("score", .num 1)])]])])])]) : Option Json)
        = some (.obj [("data", .obj [("Get", .obj [("Docs", .arr scored)])])]) ∧
      ∀ m ∈ scored, MatchedResult "cats" m) :=
  ⟨by decide, by rfl, by rfl,
   search_objects_no_vectorizer_text_match execDocs docsObjectsAt "Docs" "cats" 10
     _ (by decide) (by rfl) (by rfl)⟩

/-- Claim C2: when an explicit vector is supplied, `hybrid_search` never
consults `has_vectorizer` (the result is the same for any object-listing
oracle and equals the GraphQL path unconditionally — no fallback, no
vectorizer lookup), and the generated GraphQL query always carries the
vector inside the hybrid block. -/
theorem hybrid_search_explicit_vector_bypass
    (R : Render) (exec : GQLReq → Json) (oa oa' : Nat → Json)
    (cn q : String) (alpha : Rat) (limit : Nat) (t : Option String)
    (fo : Option Json) (v : List Json) (ft : String)
    (pr : Option (List String)) (fl : Option (List String)) :
    SearchClient.hybrid_search R exec oa cn q alpha limit t fo (some v) ft pr fl
      = SearchClient.hybrid_search R exec oa' cn q alpha limit t fo (some v) ft pr fl
    ∧ SearchClient.hybrid_search R exec oa cn q alpha limit t fo (some v) ft pr fl
      = (do
          let req ← SearchClient.hybridRequest R exec cn q alpha limit t fo
            (some v) ft pr fl
          let out ← SearchClient.processGraphQLResponse R cn
            (execute_graphql exec req)
          return some out)
    ∧ ∀ req,
        SearchClient.hybridRequest R exec cn q alpha limit t fo (some v) ft pr fl
          = .ok req →
        InStr ("vector: " ++ R.dumps (.arr v)) req.query := by
  refine ⟨rfl, rfl, ?_⟩
  intro req hreq
  simp only [SearchClient.hybridRequest, pym_bind_eq_ok, pym_pure] at hreq
  obtain ⟨fs, hfs, hr⟩ := hreq
  cases hr
  show InStr _ (SearchClient.hybridQueryStr cn limit (SearchClient.whereStr R fo)
    (SearchClient.search_clause R q alpha ft (some v) pr) fs)
  unfold SearchClient.hybridQueryStr
  refine inStr_right _ (inStr_right _ (inStr_right _ (inStr_left _ ?_)))
  unfold SearchClient.search_clause
  refine inStr_right _ (inStr_left _ ?_)
  simp only [SearchClient.hybrid_params, SearchClient.hybrid_params_str,
    List.cons_append, List.nil_append, List.singleton_append]
  refine inStr_left _ (inStr_left _ (inStr_left _ (inStr_right _ ?_)))
  simp only [SearchClient.renderParam]
  refine ⟨"\n              ", "", ?_⟩
  rw [String.append_empty]
  rw [String.append_assoc, String.append_assoc]
  congr 1

/-- Claim C2, witness: a concrete hybrid request built with an explicit
vector contains the vector clause. -/
theorem hybrid_search_explicit_vector_bypass_witness :
    SearchClient.hybridRequest R0 exec0 "C" "q" 1 3 none none
      (some [Json.num 1]) "rankedFusion" none (some ["text"])
      = .ok ⟨witnessReqQuery, none⟩ ∧
    InStr ("vector: " ++ R0.dumps (.arr [Json.num 1])) witnessReqQuery :=
  ⟨by rfl,
   (hybrid_search_explicit_vector_bypass R0 exec0 (fun _ => .obj [])
      (fun _ => .obj []) "C" "q" 1 3 none none [Json.num 1] "rankedFusion" none
      (some ["text"])).2.2 ⟨witnessReqQuery, none⟩ (by rfl)⟩

/-- Claim C3: a `fusion_type` outside the two accepted values never reaches
the network — the `search hybrid` command's outcome is never the
`api.hybrid_search` call (the only outcome that issues a request), and when
the earlier argument-processing steps succeed the outcome is exactly the
local fusion-type usage error. -/
theorem search_hybrid_fusion_type_validated
    (fj : Option (PyM Json)) (pr : Option String) (vf : Option (PyM Json))
    (ft : String) (h1 : ft ≠ "rankedFusion") (h2 : ft ≠ "relativeScoreFusion") :
    (∀ fo ve ps ft',
        Commands.search_hybrid fj pr vf ft ≠ .callApi fo ve ps ft') ∧
    ((∀ e, fj ≠ some (.error e)) →
     (vf = none ∨ ∃ v, vf = some (.ok (.arr v))) →
     Commands.search_hybrid fj pr vf ft = .errFusionType) := by
  have hb : (ft == "rankedFusion" || ft == "relativeScoreFusion") = false := by
    simp [h1, h2]
  constructor
  · intro fo ve ps ft'
    unfold Commands.search_hybrid
    cases fj with
    | none =>
        cases vf with
        | none => simp [hb]
        | some r =>
            cases r with
            | error e => simp [hb]
            | ok j => cases j <;> simp [hb]
    | some r =>
        cases r with
        | error e => simp
        | ok j =>
            cases vf with
            | none => simp [hb]
            | some r2 =>
                cases r2 with
                | error e => simp [hb]
                | ok j2 => cases j2 <;> simp [hb]
  · intro hfj hvf
    cases fj with
    | some r =>
        cases r with
        | error e => exact absurd rfl (hfj e)
        | ok j =>
            rcases hvf with rfl | ⟨v, rfl⟩
            · simp [Commands.search_hybrid, hb]
            · simp [Commands.search_hybrid, hb]
    | none =>
        rcases hvf with rfl | ⟨v, rfl⟩
        · simp [Commands.search_hybrid, hb]
        · simp [Commands.search_hybrid, hb]

/-- Claim C3, witness: the invalid fusion type "bogus" is rejected locally. -/
theorem search_hybrid_fusion_type_validated_witness :
    ("bogus" : String) ≠ "rankedFusion" ∧
    ("bogus" : String) ≠ "relativeScoreFusion" ∧
    (∀ fo ve ps ft',
        Commands.search_hybrid none none none "bogus" ≠ .callApi fo ve ps ft') ∧
    Commands.search_hybrid none none none "bogus" = .errFusionType :=
  ⟨by decide, by decide,
   (search_hybrid_fusion_type_validated none none none "bogus" (by decide)
      (by decide)).1,
   (search_hybrid_fusion_type_validated none none none "bogus" (by decide)
      (by decide)).2 (fun e => by simp) (Or.inl rfl)⟩

theorem locLoop_ok (R : Render) (ls : List Json)
    (h : ∀ l ∈ ls, ∃ lk, l = .obj lk) :
    ∃ parts, SearchClient.locLoop R ls = .ok parts := by
  induction ls with
  | nil => exact ⟨[], rfl⟩
  | cons l rest ih =>
      obtain ⟨lk, rfl⟩ := h l (List.mem_cons_self _ _)
      obtain ⟨parts, hp⟩ := ih fun x hx => h x (List.mem_cons_of_mem _ hx)
      refine ⟨("line " ++ R.pyStr ((Json.lookup lk "line").getD (.str "?")) ++
        ", column " ++ R.pyStr ((Json.lookup lk "column").getD (.str "?")))
          :: parts, ?_⟩
      simp only [SearchClient.locLoop, pym_bind_eq_ok]
      exact ⟨_, rfl, _, rfl, parts, hp, rfl⟩

theorem formatError_ok (R : Render) (e : Json) (he : ErrEntryOK e) :
    ∃ m r, SearchClient.formatError R e = .ok m ∧
      (m = "GraphQL error at " ++ r ∨ m = "GraphQL error: " ++ r) := by
  obtain ⟨ekvs, rfl, hloc⟩ := he
  unfold SearchClient.formatError
  rw [show (Json.obj ekvs).pyGetD "message" (.str "Unknown error") =
      .ok ((Json.lookup ekvs "message").getD (.str "Unknown error")) from rfl,
    pym_bind_ok]
  rw [show (Json.obj ekvs).pyGetD "locations" (.arr []) =
      .ok ((Json.lookup ekvs "locations").getD (.arr [])) from rfl,
    pym_bind_ok]
  cases hl : Json.lookup ekvs "locations" with
  | none =>
      rw [Option.getD_none]
      rw [if_neg (by decide)]
      exact ⟨_, _, rfl, Or.inr rfl⟩
  | some v =>
      rw [Option.getD_some]
      rcases hloc v hl with hfalse | ⟨ls, rfl, hls⟩
      · rw [if_neg (by rw [hfalse]; exact Bool.false_ne_true)]
        exact ⟨_, _, rfl, Or.inr rfl⟩
      · by_cases ht : Json.pyTruthy (.arr ls) = true
        · rw [if_pos ht]
          obtain ⟨parts, hp⟩ := locLoop_ok R ls hls
          rw [show pyIter (Json.arr ls) = .ok ls from rfl, pym_bind_ok, hp,
            pym_bind_ok, pym_pure]
          refine ⟨_, strJoin ", " parts ++ (": " ++
            R.pyStr ((Json.lookup ekvs "message").getD (.str "Unknown error"))),
            rfl, Or.inl ?_⟩
          simp [String.append_assoc]
        · rw [if_neg ht]
          exact ⟨_, _, rfl, Or.inr rfl⟩

theorem errLoop_ok (R : Render) (es : List Json)
    (h : ∀ e ∈ es, ErrEntryOK e) :
    ∃ msgs, SearchClient.errLoop R es = .ok msgs ∧
      msgs.length = es.length ∧ ∀ m ∈ msgs, m ≠ "" := by
  induction es with
  | nil => exact ⟨[], rfl, rfl, by simp⟩
  | cons e rest ih =>
      obtain ⟨m, r, hm, hshape⟩ := formatError_ok R e (h e (List.mem_cons_self _ _))
      obtain ⟨msgs, hmsgs, hlen, hne⟩ :=
        ih fun x hx => h x (List.mem_cons_of_mem _ hx)
      refine ⟨m :: msgs, ?_, by simp [hlen], ?_⟩
      · simp only [SearchClient.errLoop, pym_bind_eq_ok]
        exact ⟨m, hm, msgs, hmsgs, rfl⟩
      · intro x hx
        rcases List.mem_cons.1 hx with rfl | hx
        · rcases hshape with rfl | rfl
          · exact append_ne_empty_left (by decide)
          · exact append_ne_empty_left (by decide)
        · exact hne x hx

theorem hybrid_graphql_path (R : Render) (exec : GQLReq → Json)
    (oa : Nat → Json) (cn q : String) (alpha : Rat) (limit : Nat)
    (t : Option String) (fo : Option Json) (v : List Json) (ft : String)
    (pr : Option (List String)) (fl : Option (List String)) (req : GQLReq)
    (hreq : SearchClient.hybridRequest R exec cn q alpha limit t fo (some v)
      ft pr fl = .ok req) :
    SearchClient.hybrid_search R exec oa cn q alpha limit t fo (some v) ft pr fl
      = (SearchClient.processGraphQLResponse R cn (exec req)).map some := by
  have h0 : SearchClient.hybrid_search R exec oa cn q alpha limit t fo (some v)
      ft pr fl = (do
        let req ← SearchClient.hybridRequest R exec cn q alpha limit t fo
          (some v) ft pr fl
        let out ← SearchClient.processGraphQLResponse R cn
          (execute_graphql exec req)
        return some out) := rfl
  rw [h0, hreq, pym_bind_ok]
  rw [show SearchClient.processGraphQLResponse R cn (execute_graphql exec req)
      = SearchClient.processGraphQLResponse R cn (exec req) from rfl]
  cases hp : SearchClient.processGraphQLResponse R cn (exec req) with
  | error e => rfl
  | ok out => rfl

theorem filter_graphql_path (R : Render) (exec : GQLReq → Json)
    (oa : Nat → Json) (cn : String) (fobj : Json) (limit : Nat)
    (t : Option String) (fl : Option (List String)) (req : GQLReq)
    (hhv : SearchClient.has_vectorizer exec cn = .ok true)
    (hreq : SearchClient.filterRequest R exec cn fobj limit t fl = .ok req) :
    SearchClient.filter_objects R exec oa cn fobj limit t fl
      = SearchClient.processGraphQLResponse R cn (exec req) := by
  unfold SearchClient.filter_objects
  rw [hhv, pym_bind_ok]
  rw [if_neg (by simp)]
  rw [hreq, pym_bind_ok]
  rfl

theorem processResponse_errors (R : Render) (cn : String) (response : Json)
    (rkvs : List (String × Json)) (es : List Json)
    (hresp : response = .obj rkvs)
    (herr : Json.lookup rkvs "errors" = some (.arr es))
    (hne : es ≠ [])
    (hwf : ∀ e ∈ es, ErrEntryOK e) :
    ∃ s, s ≠ "" ∧
      SearchClient.processGraphQLResponse R cn response =
        .ok (.obj [("error", .str s), ("objects", .arr [])]) := by
  subst hresp
  obtain ⟨msgs, hmsgs, hlen, hnem⟩ := errLoop_ok R es hwf
  have htr : (Json.obj rkvs).pyTruthy = true := by
    have h1 := lookup_isSome_ne_nil herr
    simp [Json.pyTruthy, h1]
  have hin : Json.pyIn "errors" (Json.obj rkvs) = .ok true := by
    simp [Json.pyIn, herr]
  have hix : pyIndexStr (Json.obj rkvs) "errors" = .ok (.arr es) := by
    simp [pyIndexStr, herr]
  refine ⟨strJoin "\n" msgs, ?_, ?_⟩
  · cases msgs with
    | nil => exact absurd hlen.symm (by simpa using hne)
    | cons m tl =>
        exact strJoin_cons_ne_empty (hnem m (List.mem_cons_self _ _))
  · unfold SearchClient.processGraphQLResponse
    rw [if_pos htr]
    simp [hin, hix, pym_bind_ok, pyIter, hmsgs, pym_pure]

/-- Claim C4 (amended): for every GraphQL response whose top-level `errors`
key holds a non-empty array of error objects, the errors are detected before
`data` is consulted (no constraint on a coexisting `data` key), their
messages and line/column locations are concatenated into one string, and
both `hybrid_search` and `filter_objects` return
`{error: non-empty string, objects: []}` as data without raising.  (The
original claim is refuted by an empty `errors` array, which yields an empty
`error` string — see the counterexample.) -/
theorem graphql_errors_reported_not_thrown
    (R : Render) (cn : String) (response : Json)
    (rkvs : List (String × Json)) (es : List Json)
    (hresp : response = .obj rkvs)
    (herr : Json.lookup rkvs "errors" = some (.arr es))
    (hne : es ≠ [])
    (hwf : ∀ e ∈ es, ErrEntryOK e) :
    ∃ s, s ≠ "" ∧
      SearchClient.processGraphQLResponse R cn response =
        .ok (.obj [("error", .str s), ("objects", .arr [])]) ∧
      (∀ exec oa q alpha limit t fo v ft pr fl req,
         SearchClient.hybridRequest R exec cn q alpha limit t fo (some v)
           ft pr fl = .ok req →
         exec req = response →
         SearchClient.hybrid_search R exec oa cn q alpha limit t fo (some v)
           ft pr fl
           = .ok (some (.obj [("error", .str s), ("objects", .arr [])]))) ∧
      (∀ exec oa fobj limit t fl req,
         SearchClient.has_vectorizer exec cn = .ok true →
         SearchClient.filterRequest R exec cn fobj limit t fl = .ok req →
         exec req = response →
         SearchClient.filter_objects R exec oa cn fobj limit t fl
           = .ok (.obj [("error", .str s), ("objects", .arr [])])) := by
  obtain ⟨s, hs, hp⟩ :=
    processResponse_errors R cn response rkvs es hresp herr hne hwf
  refine ⟨s, hs, hp, ?_, ?_⟩
  · intro exec oa q alpha limit t fo v ft pr fl req hreq hex
    rw [hybrid_graphql_path R exec oa cn q alpha limit t fo v ft pr fl req hreq,
      hex, hp]
    rfl
  · intro exec oa fobj limit t fl req hhv hreq hex
    rw [filter_graphql_path R exec oa cn fobj limit t fl req hhv hreq, hex, hp]

/-- Claim C4, counterexample to the claim as stated: a response containing a
top-level `errors` array that is empty makes `hybrid_search` return an EMPTY
`error` string, not a non-empty one. -/
theorem graphql_empty_errors_counterexample :
    SearchClient.hybrid_search R0 execEmptyErrors (fun _ => Json.obj []) "C"
      "q" 1 3 none none (some []) "rankedFusion" none (some ["text"])
      = .ok (some (.obj [("error", .str ""), ("objects", .arr [])])) := by rfl

/-- Claim C4, witness: an error entry with message and location (plus a
coexisting `data` key) surfaces through `filter_objects` as a non-empty
error string with an empty object list. -/
theorem graphql_errors_reported_not_thrown_witness :
    ∃ s, s ≠ "" ∧
      SearchClient.filter_objects R0 execVecErr (fun _ => Json.obj []) "C"
        (.obj [("path", .str "x")]) 3 none (some ["text"])
        = .ok (.obj [("error", .str s), ("objects", .arr [])]) := by
  have hwf : ∀ e ∈ [Json.obj
      [("message", Json.str "Cannot query field"),
       ("locations", Json.arr [.obj [("line", Json.num 17),
         ("column", Json.num 19)]])]], ErrEntryOK e := by
    intro e he
    rcases List.mem_singleton.1 he with rfl
    refine ⟨_, rfl, ?_⟩
    intro v hv
    have hv' : v = Json.arr [.obj [("line", Json.num 17),
        ("column", Json.num 19)]] := by
      rw [show Json.lookup [("message", Json.str "Cannot query field"),
        ("locations", Json.arr [.obj [("line", Json.num 17),
          ("column", Json.num 19)]])] "locations"
        = some (Json.arr [.obj [("line", Json.num 17),
          ("column", Json.num 19)]]) from rfl] at hv
      exact (Option.some.inj hv).symm
    subst hv'
    refine Or.inr ⟨_, rfl, ?_⟩
    intro l hl
    rcases List.mem_singleton.1 hl with rfl
    exact ⟨_, rfl⟩
  obtain ⟨s, hs, hp, hhyb, hfil⟩ :=
    graphql_errors_reported_not_thrown R0 "C" errResponse
      [("errors", .arr [.obj
          [("message", .str "Cannot query field"),
           ("locations", .arr [.obj [("line", .num 17), ("column", .num 19)]])]]),
       ("data", .obj [("Get", .obj [("C", .arr [])])])]
      [.obj [("message", .str "Cannot query field"),
             ("locations", .arr [.obj [("line", .num 17), ("column", .num 19)]])]]
      rfl rfl (by simp) hwf
  exact ⟨s, hs, hfil execVecErr (fun _ => Json.obj [])
    (.obj [("path", .str "x")]) 3 none (some ["text"])
    ⟨witnessFilterQuery, none⟩ (by rfl) (by rfl) (by rfl)⟩

/-- Claim C5, counterexample: status 304 is outside [200,300), yet the
transport returns the parsed body instead of failing, because
`requests`' `raise_for_status` raises only for 4xx/5xx. -/
theorem handle_response_304_counterexample :
    WeaviateClient.handle_response R0 errStr0 304 (.json (.obj [("a", .num 1)]))
      = .ok (.obj [("a", .num 1)]) ∧ ¬ (200 ≤ 304 ∧ 304 < 300) :=
  ⟨rfl, by decide⟩

/-- Claim C5 (amended): on every status outside [400,600) (where
`raise_for_status` does not raise) the transport returns the body decoded as
JSON, or `{}` when the body is empty; on status in [400,600) it fails with
an error whose message is extracted from the body's `message` field, or the
joined `error[].message` entries, or the raw `HTTPError` string when the
body is not parseable JSON (or carries neither field). -/
theorem handle_response_status_behavior (R : Render) (errStr : Nat → String)
    (status : Nat) :
    (¬ (400 ≤ status ∧ status < 600) →
       WeaviateClient.handle_response R errStr status .empty = .ok (.obj []) ∧
       ∀ j, WeaviateClient.handle_response R errStr status (.json j) = .ok j) ∧
    (400 ≤ status → status < 600 →
       (WeaviateClient.handle_response R errStr status .empty =
          .error (.exception ("API Error: " ++ errStr status))) ∧
       (WeaviateClient.handle_response R errStr status .invalid =
          .error (.exception ("API Error: " ++ errStr status))) ∧
       (∀ kvs m, Json.lookup kvs "message" = some m →
          WeaviateClient.handle_response R errStr status (.json (.obj kvs)) =
            .error (.exception ("API Error: " ++ R.pyStr m))) ∧
       (∀ kvs errs msgs joined,
          Json.lookup kvs "message" = none →
          Json.lookup kvs "error" = some (.arr errs) →
          WeaviateClient.bodyErrMsgs R errs = .ok msgs →
          pyJoinStrs "; " msgs = .ok joined →
          WeaviateClient.handle_response R errStr status (.json (.obj kvs)) =
            .error (.exception ("API Error: " ++ joined))) ∧
       (∀ kvs, Json.lookup kvs "message" = none →
          Json.lookup kvs "error" = none →
          WeaviateClient.handle_response R errStr status (.json (.obj kvs)) =
            .error (.exception ("API Error: " ++ errStr status)))) := by
  constructor
  · intro hout
    have hrfs : raiseForStatus status = false := by
      simp only [raiseForStatus, Bool.and_eq_false_iff, decide_eq_false_iff_not]
      omega
    constructor
    · unfold WeaviateClient.handle_response
      rw [if_neg (by rw [hrfs]; exact Bool.false_ne_true)]
    · intro j
      unfold WeaviateClient.handle_response
      rw [if_neg (by rw [hrfs]; exact Bool.false_ne_true)]
  · intro h4 h6
    have hrfs : raiseForStatus status = true := by
      simp only [raiseForStatus, Bool.and_eq_true, decide_eq_true_eq]
      omega
    refine ⟨?_, ?_, ?_, ?_, ?_⟩
    · unfold WeaviateClient.handle_response
      rw [if_pos hrfs]
      rfl
    · unfold WeaviateClient.handle_response
      rw [if_pos hrfs]
      rfl
    · intro kvs m hm
      have hbody : WeaviateClient.errorMsgFromBody R (.json (.obj kvs)) =
          .ok (some ("API Error: " ++ R.pyStr m)) := by
        simp [WeaviateClient.errorMsgFromBody, Json.pyIn, hm, pyIndexStr,
          pym_bind_ok, pym_pure]
      unfold WeaviateClient.handle_response
      rw [if_pos hrfs, hbody]
    · intro kvs errs msgs joined hm he hbe hj
      have hbody : WeaviateClient.errorMsgFromBody R (.json (.obj kvs)) =
          .ok (some ("API Error: " ++ joined)) := by
        simp [WeaviateClient.errorMsgFromBody, Json.pyIn, hm, he, pyIndexStr,
          hbe, hj, pym_bind_ok, pym_pure]
      unfold WeaviateClient.handle_response
      rw [if_pos hrfs, hbody]
    · intro kvs hm he
      have hbody : WeaviateClient.errorMsgFromBody R (.json (.obj kvs)) =
          .ok none := by
        simp [WeaviateClient.errorMsgFromBody, Json.pyIn, hm, he, pym_bind_ok,
          pym_pure]
      unfold WeaviateClient.handle_response
      rw [if_pos hrfs, hbody]

/-- Claim C5, witness: a 404 with a `message` body fails with that message. -/
theorem handle_response_status_behavior_witness :
    (400 ≤ 404) ∧ (404 < 600) ∧
    WeaviateClient.handle_response R0 errStr0 404
        (.json (.obj [("message", .str "boom")]))
      = .error (.exception ("API Error: " ++ R0.pyStr (.str "boom"))) :=
  ⟨by decide, by decide,
   ((handle_response_status_behavior R0 errStr0 404).2 (by decide)
      (by decide)).2.2.1 [("message", .str "boom")] (.str "boom") rfl⟩

theorem dictSet_str_fresh (d : List (Json × Json)) (nm : String) (v : Json)
    (h : (d.any fun kv => scalarKeyEq kv.1 (.str nm)) = false) :
    dictSet d (.str nm) v = .ok (d ++ [(.str nm, v)]) := by
  simp [dictSet, h]

theorem match_obj_shape (x y : PyM (List (String × Json))) :
    ∃ s, (match x with
      | .ok s => Json.obj s
      | .error _ =>
          match y with
          | .ok s => Json.obj s
          | .error _ => Json.obj SchemaClient.statsBase) = Json.obj s := by
  cases x with
  | ok s => exact ⟨s, rfl⟩
  | error e =>
      cases y with
      | ok s => exact ⟨s, rfl⟩
      | error f => exact ⟨_, rfl⟩

theorem stats_isObj (countResp metaResp schemaResp shardsResp : PyM Json)
    (cn : String) :
    ∃ s, SchemaClient.get_collection_stats countResp metaResp schemaResp
      shardsResp cn = .obj s := by
  unfold SchemaClient.get_collection_stats
  exact match_obj_shape _ _

theorem shardLoop_named (ps : List (String × List (String × Json))) :
    ∀ acc : List (Json × Json),
      (∀ p ∈ ps, Json.lookup p.2 "name" = some (.str p.1)) →
      (ps.map Prod.fst).Nodup →
      (∀ p ∈ ps, ∀ kv ∈ acc, scalarKeyEq kv.1 (.str p.1) = false) →
      SchemaClient.shardLoop (ps.map fun p => .obj p.2) acc =
        .ok (acc ++ ps.map fun p => (.str p.1, .obj p.2)) := by
  induction ps with
  | nil =>
      intro acc _ _ _
      simp [SchemaClient.shardLoop]
  | cons p rest ih =>
      intro acc hname hnodup hfresh
      obtain ⟨nm, kvs⟩ := p
      have hnm : Json.lookup kvs "name" = some (.str nm) :=
        hname (nm, kvs) (List.mem_cons_self _ _)
      have hany : (acc.any fun kv => scalarKeyEq kv.1 (.str nm)) = false := by
        rw [List.any_eq_false]
        intro kv hkv
        simpa using hfresh (nm, kvs) (List.mem_cons_self _ _) kv hkv
      simp only [List.map_cons, SchemaClient.shardLoop, hnm,
        dictSet_str_fresh _ _ _ hany, pym_bind_ok]
      have hrec := ih (acc ++ [(.str nm, .obj kvs)])
        (fun x hx => hname x (List.mem_cons_of_mem _ hx))
        (by simpa using hnodup.of_cons)
        ?_
      · rw [hrec]
        simp
      · intro x hx kv hkv
        rcases List.mem_append.1 hkv with h1 | h1
        · exact hfresh x (List.mem_cons_of_mem _ hx) kv h1
        · rcases List.mem_singleton.1 h1 with rfl
          have hx1 : x.1 ∈ rest.map Prod.fst := List.mem_map_of_mem Prod.fst hx
          have hninmap : nm ∉ rest.map Prod.fst := by
            rw [List.map_cons] at hnodup
            exact (List.nodup_cons.1 hnodup).1
          have hne : nm ≠ x.1 := by
            intro hcontra
            exact hninmap (by rw [hcontra]; exact hx1)
          simp [scalarKeyEq, hne]

theorem get_shards_arr (countResp metaResp schemaResp : PyM Json) (cn : String)
    (L : List Json) (D : List (Json × Json))
    (hloop : SchemaClient.shardLoop L [] = .ok D) :
    SchemaClient.get_shards (.ok (.arr L)) countResp metaResp schemaResp cn
      = .dict (SchemaClient.updateShardCount countResp metaResp schemaResp
          (.ok (.arr L)) cn D) := by
  simp only [SchemaClient.get_shards, pym_bind_ok, hloop, pym_pure]

theorem update_len_ne_one (countResp metaResp schemaResp shardsResp : PyM Json)
    (cn : String) (D : List (Json × Json)) (hlen : D.length ≠ 1) :
    SchemaClient.updateShardCount countResp metaResp schemaResp shardsResp cn D
      = D := by
  obtain ⟨s, hs⟩ := stats_isObj countResp metaResp schemaResp shardsResp cn
  have hbeq : (D.length == 1) = false := by simpa using hlen
  simp only [SchemaClient.updateShardCount, hs, Json.pyGetD, pym_bind_ok, hbeq,
    Bool.false_eq_true, if_false, pym_pure]

theorem update_single_pos (countResp metaResp schemaResp shardsResp : PyM Json)
    (cn : String) (k : Json) (kvs : List (String × Json)) (t : Rat)
    (hstats : (SchemaClient.get_collection_stats countResp metaResp schemaResp
        shardsResp cn).pyGetD "object_count" (.num 0) = .ok (.num t))
    (ht : 0 < t) :
    SchemaClient.updateShardCount countResp metaResp schemaResp shardsResp cn
        [(k, .obj kvs)]
      = [(k, .obj (Json.assocSet kvs "objectCount" (.num t)))] := by
  have hgt : pyGtZero (.num t) = .ok true := by
    simp [pyGtZero, ht]
  simp only [SchemaClient.updateShardCount, hstats, pym_bind_ok,
    List.length_cons, List.length_nil, hgt, pyGtZero, Json.pySetKey, pym_pure]
  simp [ht]

theorem update_single_not_pos (countResp metaResp schemaResp shardsResp : PyM Json)
    (cn : String) (k v : Json) (c : Json)
    (hstats : (SchemaClient.get_collection_stats countResp metaResp schemaResp
        shardsResp cn).pyGetD "object_count" (.num 0) = .ok c)
    (hgt : pyGtZero c ≠ .ok true) :
    SchemaClient.updateShardCount countResp metaResp schemaResp shardsResp cn
        [(k, v)]
      = [(k, v)] := by
  cases hc : pyGtZero c with
  | error e =>
      simp only [SchemaClient.updateShardCount, hstats, pym_bind_ok,
        List.length_cons, List.length_nil, hc, pym_bind_err, pym_pure]
      simp
  | ok b =>
      cases b with
      | true => exact absurd hc hgt
      | false =>
          simp only [SchemaClient.updateShardCount, hstats, pym_bind_ok,
            List.length_cons, List.length_nil, hc, Bool.false_eq_true,
            if_false, pym_pure]
          simp

/-- Claim C6: `get_shards` normalizes a list-shaped response into a mapping
keyed by shard name (distinct-name lists map one-to-one); when the mapping
has exactly one shard and the authoritative total from
`get_collection_stats` is a number greater than zero, that total overwrites
the shard's `objectCount`; otherwise the shard is kept as received. -/
theorem get_shards_normalize_and_overwrite
    (countResp metaResp schemaResp : PyM Json) (cn : String) :
    (∀ ps : List (String × List (String × Json)),
       (∀ p ∈ ps, Json.lookup p.2 "name" = some (.str p.1)) →
       (ps.map Prod.fst).Nodup →
       ps.length ≠ 1 →
       SchemaClient.get_shards (.ok (.arr (ps.map fun p => .obj p.2)))
           countResp metaResp schemaResp cn
         = .dict (ps.map fun p => (.str p.1, .obj p.2))) ∧
    (∀ kvs nm t,
       Json.lookup kvs "name" = some (.str nm) →
       (SchemaClient.get_collection_stats countResp metaResp schemaResp
           (.ok (.arr [.obj kvs])) cn).pyGetD "object_count" (.num 0)
         = .ok (.num t) →
       0 < t →
       SchemaClient.get_shards (.ok (.arr [.obj kvs])) countResp metaResp
           schemaResp cn
         = .dict [(.str nm, .obj (Json.assocSet kvs "objectCount" (.num t)))]) ∧
    (∀ kvs nm c,
       Json.lookup kvs "name" = some (.str nm) →
       (SchemaClient.get_collection_stats countResp metaResp schemaResp
           (.ok (.arr [.obj kvs])) cn).pyGetD "object_count" (.num 0) = .ok c →
       pyGtZero c ≠ .ok true →
       SchemaClient.get_shards (.ok (.arr [.obj kvs])) countResp metaResp
           schemaResp cn
         = .dict [(.str nm, .obj kvs)]) := by
  refine ⟨?_, ?_, ?_⟩
  · intro ps hname hnodup hlen
    have hloop := shardLoop_named ps [] hname hnodup
      (by intro p hp kv hkv; simp at hkv)
    rw [get_shards_arr countResp metaResp schemaResp cn _ _
      (by simpa using hloop)]
    rw [update_len_ne_one _ _ _ _ _ _ (by simpa using hlen)]
  · intro kvs nm t hname hstats ht
    have hloop : SchemaClient.shardLoop [.obj kvs] []
        = .ok [(.str nm, .obj kvs)] := by
      simp [SchemaClient.shardLoop, hname, dictSet, pym_bind_ok]
    rw [get_shards_arr countResp metaResp schemaResp cn _ _ hloop]
    rw [update_single_pos countResp metaResp schemaResp _ cn _ kvs t hstats ht]
  · intro kvs nm c hname hstats hgt
    have hloop : SchemaClient.shardLoop [.obj kvs] []
        = .ok [(.str nm, .obj kvs)] := by
      simp [SchemaClient.shardLoop, hname, dictSet, pym_bind_ok]
    rw [get_shards_arr countResp metaResp schemaResp cn _ _ hloop]
    rw [update_single_not_pos countResp metaResp schemaResp _ cn _ _ c hstats hgt]

/-- Claim C6, witness: the spec's example — a raw list `[{"name":"shard1",
"objectCount":"5"}]` normalizes to a name-keyed mapping, and an
authoritative count of 42 overwrites the shard's objectCount. -/
theorem get_shards_normalize_and_overwrite_witness :
    Json.lookup [("name", Json.str "shard1"), ("objectCount", Json.str "5")]
        "name" = some (.str "shard1") ∧
    (SchemaClient.get_collection_stats (.ok countResponse42) (.ok (.obj []))
        (.ok (.obj [])) (.ok shardListResponse) "C").pyGetD "object_count"
        (.num 0) = .ok (.num 42) ∧
    (0 : Rat) < 42 ∧
    SchemaClient.get_shards (.ok shardListResponse) (.ok countResponse42)
        (.ok (.obj [])) (.ok (.obj [])) "C"
      = .dict [(.str "shard1",
          .obj [("name", .str "shard1"), ("objectCount", .num 42)])] := by
  refine ⟨rfl, by rfl, by norm_num, ?_⟩
  have h := (get_shards_normalize_and_overwrite (.ok countResponse42)
    (.ok (.obj [])) (.ok (.obj [])) "C").2.1
    [("name", Json.str "shard1"), ("objectCount", Json.str "5")] "shard1" 42
    rfl (by rfl) (by norm_num)
  rw [show SchemaClient.get_shards (.ok shardListResponse)
      (.ok countResponse42) (.ok (.obj [])) (.ok (.obj [])) "C"
    = SchemaClient.get_shards
      (.ok (.arr [.obj [("name", Json.str "shard1"),
        ("objectCount", Json.str "5")]]))
      (.ok countResponse42) (.ok (.obj [])) (.ok (.obj [])) "C" from rfl, h]
  rfl

theorem pyGetD_error {j : Json} {k : String} {d : Json} {e : PyErr}
    (h : j.pyGetD k d = .error e) : e = .attributeError := by
  cases j <;> simp [Json.pyGetD] at h <;> exact h.symm

theorem aggChain_error_attr (resp : Json) (cn : String) (e : PyErr)
    (h : ObjectsClient.aggChain resp cn = .error e) : e = .attributeError := by
  unfold ObjectsClient.aggChain at h
  cases h1 : resp.pyGetD "data" (.obj []) with
  | error e1 =>
      rw [h1, pym_bind_err] at h
      cases h
      exact pyGetD_error h1
  | ok d =>
      rw [h1, pym_bind_ok] at h
      cases h2 : d.pyGetD "Aggregate" (.obj []) with
      | error e2 =>
          rw [h2, pym_bind_err] at h
          cases h
          exact pyGetD_error h2
      | ok a =>
          rw [h2, pym_bind_ok] at h
          exact pyGetD_error h

/-- Claim C7: `get_collection_count` returns 0 whenever the aggregate
response is malformed — the `.get` chain raises (caught), the per-class
entry list is empty, or the entry is not a list — and returns the parsed
`meta.count` value exactly when the aggregate result is a list with at
least one entry carrying it. -/
theorem get_collection_count_defaults_zero (cn : String) :
    (∀ resp e, ObjectsClient.aggChain resp cn = .error e →
        ObjectsClient.get_collection_count (.ok resp) cn = .ok (.num 0)) ∧
    (∀ resp, ObjectsClient.aggChain resp cn = .ok (.arr []) →
        ObjectsClient.get_collection_count (.ok resp) cn = .ok (.num 0)) ∧
    (∀ resp v, ObjectsClient.aggChain resp cn = .ok v →
        (∀ xs, v ≠ .arr xs) →
        ObjectsClient.get_collection_count (.ok resp) cn = .ok (.num 0)) ∧
    (∀ resp rest xkvs mkvs c,
        ObjectsClient.aggChain resp cn = .ok (.arr (.obj xkvs :: rest)) →
        Json.lookup xkvs "meta" = some (.obj mkvs) →
        Json.lookup mkvs "count" = some c →
        ObjectsClient.get_collection_count (.ok resp) cn = .ok c) := by
  refine ⟨?_, ?_, ?_, ?_⟩
  · intro resp e h
    have he := aggChain_error_attr resp cn e h
    subst he
    have hci : ObjectsClient.countInner resp cn = .error .attributeError := by
      unfold ObjectsClient.countInner
      rw [h, pym_bind_err]
    simp only [ObjectsClient.get_collection_count, hci]
  · intro resp h
    have hci : ObjectsClient.countInner resp cn = .ok (.num 0) := by
      unfold ObjectsClient.countInner
      rw [h, pym_bind_ok]
      rfl
    simp only [ObjectsClient.get_collection_count, hci]
  · intro resp v h hne
    have hci : ObjectsClient.countInner resp cn = .ok (.num 0) := by
      unfold ObjectsClient.countInner
      rw [h, pym_bind_ok]
      cases v with
      | arr xs => exact absurd rfl (hne xs)
      | null => rfl
      | bool b => rfl
      | num n => rfl
      | str s => rfl
      | obj kvs => rfl
    simp only [ObjectsClient.get_collection_count, hci]
  · intro resp rest xkvs mkvs c h hmeta hcount
    have hci : ObjectsClient.countInner resp cn = .ok c := by
      unfold ObjectsClient.countInner
      rw [h, pym_bind_ok]
      show ((Json.obj xkvs).pyGetD "meta" (.obj []) >>= fun m =>
        m.pyGetD "count" (.num 0)) = .ok c
      rw [show (Json.obj xkvs).pyGetD "meta" (.obj [])
          = .ok ((Json.lookup xkvs "meta").getD (.obj [])) from rfl,
        hmeta, Option.getD_some, pym_bind_ok]
      rw [show (Json.obj mkvs).pyGetD "count" (.num 0)
          = .ok ((Json.lookup mkvs "count").getD (.num 0)) from rfl,
        hcount, Option.getD_some]
    simp only [ObjectsClient.get_collection_count, hci]
  
/-- Claim C7, witness: an empty per-class aggregate list yields 0; a
well-formed single-entry list yields its `meta.count` (42). -/
theorem get_collection_count_defaults_zero_witness :
    ObjectsClient.aggChain aggEmptyResponse "C" = .ok (.arr []) ∧
    ObjectsClient.get_collection_count (.ok aggEmptyResponse) "C"
      = .ok (.num 0) ∧
    ObjectsClient.aggChain countResponse42 "C"
      = .ok (.arr [.obj [("meta", .obj [("count", .num 42)])]]) ∧
    ObjectsClient.get_collection_count (.ok countResponse42) "C"
      = .ok (.num 42) :=
  ⟨rfl, (get_collection_count_defaults_zero "C").2.1 aggEmptyResponse rfl, rfl,
   (get_collection_count_defaults_zero "C").2.2.2 countResponse42 []
     [("meta", .obj [("count", .num 42)])] [("count", .num 42)] (.num 42)
     rfl rfl rfl⟩

theorem setMem_mem {av : List Json} {x : String}
    (h : SearchClient.setMem av x = true) : Json.str x ∈ av := by
  obtain ⟨y, hy, hyeq⟩ := List.any_eq_true.1 h
  have := pyEqStr_eq hyeq
  exact this ▸ hy

theorem fieldsFromAvailable_subset (av : List Json) (hne : av ≠ []) :
    ∀ f ∈ SearchClient.fieldsFromAvailable av, f ∈ av := by
  intro f hf
  simp only [SearchClient.fieldsFromAvailable] at hf
  have hsub : ∀ g ∈ ((if SearchClient.setMem av "text" = true
        then [Json.str "text"] else []) ++
      ((["full_path", "chunk_index", "total_chunks", "ts"].filter
          fun x => SearchClient.setMem av x).map Json.str)), g ∈ av := by
    intro g hg
    rcases List.mem_append.1 hg with h1 | h1
    · by_cases h : SearchClient.setMem av "text" = true
      · rw [if_pos h] at h1
        rcases List.mem_singleton.1 h1 with rfl
        exact setMem_mem h
      · rw [if_neg h] at h1
        simp at h1
    · obtain ⟨x, hx, rfl⟩ := List.mem_map.1 h1
      exact setMem_mem (List.mem_filter.1 hx).2
  by_cases hempty : ((if SearchClient.setMem av "text" = true
        then [Json.str "text"] else []) ++
      ((["full_path", "chunk_index", "total_chunks", "ts"].filter
          fun x => SearchClient.setMem av x).map Json.str)).isEmpty
      && !av.isEmpty
  · rw [if_pos hempty] at hf
    rw [if_neg (by simp [hne])] at hf
    exact hf
  · rw [if_neg hempty] at hf
    have hne2 : ¬ ((if SearchClient.setMem av "text" = true
          then [Json.str "text"] else []) ++
        ((["full_path", "chunk_index", "total_chunks", "ts"].filter
            fun x => SearchClient.setMem av x).map Json.str)).isEmpty = true := by
      intro hcontra
      apply hempty
      simp only [hcontra, Bool.true_and, Bool.not_eq_true']
      simpa [List.isEmpty_iff] using hne
    rw [if_neg (by simpa using hne2)] at hf
    exact hsub f hf

/-- Claim C8, counterexample to the claim as stated: for a collection whose
schema has NO properties, field detection falls back to the single field
"text", which is not a property of the collection — the generated query
would request a nonexistent field. -/
theorem detect_fields_text_fallback_counterexample :
    SearchClient.get_available_fields execEmptyProps "C" = .ok [] ∧
    SearchClient.detect_fields execEmptyProps "C" none = [.str "text"] ∧
    (Json.str "text") ∉ ([] : List Json) :=
  ⟨rfl, rfl, by simp⟩

/-- Claim C8 (amended): for hybrid/filter queries built with no
caller-supplied fields list, whenever schema introspection succeeds and
yields at least one property name, every field the engine selects is one of
the collection's introspected property names; when the property set is
empty it falls back to the single literal field "text" (which need not
exist — see the counterexample), and on introspection failure to a fixed
default list. -/
theorem detect_fields_subset_of_schema
    (exec : GQLReq → Json) (cn : String) (av : List Json)
    (hav : SearchClient.get_available_fields exec cn = .ok av)
    (hne : av ≠ []) :
    ∀ f ∈ SearchClient.detect_fields exec cn none, f ∈ av := by
  have hdf : SearchClient.detect_fields exec cn none
      = SearchClient.fieldsFromAvailable av := by
    simp only [SearchClient.detect_fields, SearchClient.detectFieldsInner, hav,
      pym_bind_ok, pym_pure]
  rw [hdf]
  exact fieldsFromAvailable_subset av hne

/-- Claim C8, witness: a collection with the single property "title" gets a
field selection entirely inside its property set. -/
theorem detect_fields_subset_of_schema_witness :
    SearchClient.get_available_fields execTitle "C" = .ok [.str "title"] ∧
    ([Json.str "title"] : List Json) ≠ [] ∧
    ∀ f ∈ SearchClient.detect_fields execTitle "C" none,
      f ∈ [Json.str "title"] :=
  ⟨rfl, by simp,
   detect_fields_subset_of_schema execTitle "C" [.str "title"] rfl (by simp)⟩

theorem hvLoop_not_found (cn : String) (xs : List Json)
    (h : ∀ s ∈ xs, ∃ kvs, s = .obj kvs ∧
      ∀ v, Json.lookup kvs "class" = some v → v.pyEqStr cn = false) :
    SearchClient.hvLoop cn xs = .ok false := by
  induction xs with
  | nil => rfl
  | cons s rest ih =>
      obtain ⟨kvs, rfl, hcl⟩ := h s (List.mem_cons_self _ _)
      have hrec := ih fun x hx => h x (List.mem_cons_of_mem _ hx)
      simp only [SearchClient.hvLoop, Json.pyGetD, pym_bind_ok]
      cases hlk : Json.lookup kvs "class" with
      | none =>
          rw [Option.getD_none]
          rw [if_neg (by simp [Json.pyEqStr])]
          exact hrec
      | some v =>
          rw [Option.getD_some]
          rw [if_neg (by rw [hcl v hlk]; exact Bool.false_ne_true)]
          exact hrec

/-- Claim C9: a class name absent from the schema listing makes
`SearchClient.has_vectorizer` return False; the `SchemaClient` variant also
returns False when the schema fetch itself raises; and with the vectorizer
check False, `hybrid_search` without an explicit vector takes the
client-side `search_objects` fallback path instead of failing. -/
theorem unknown_collection_no_vectorizer_fallback :
    (∀ (exec : GQLReq → Json) (cn : String) (xs : List Json),
       SearchClient.get_schemas exec = .ok (.arr xs) →
       (∀ s ∈ xs, ∃ kvs, s = .obj kvs ∧
          ∀ v, Json.lookup kvs "class" = some v → v.pyEqStr cn = false) →
       SearchClient.has_vectorizer exec cn = .ok false) ∧
    (∀ (resp : PyM Json) (cn : String) (e : PyErr), resp = .error e →
       SchemaClient.has_vectorizer resp cn = false) ∧
    (∀ (R : Render) (exec : GQLReq → Json) (oa : Nat → Json) (cn q : String)
       (alpha : Rat) (limit : Nat) (t : Option String) (fo : Option Json)
       (ft : String) (pr fl : Option (List String)),
       SearchClient.has_vectorizer exec cn = .ok false →
       SearchClient.hybrid_search R exec oa cn q alpha limit t fo none ft pr fl
         = SearchClient.search_objects exec oa cn q limit) := by
  refine ⟨?_, ?_, ?_⟩
  · intro exec cn xs hs hcls
    unfold SearchClient.has_vectorizer
    rw [hs, pym_bind_ok]
    rw [show pyIter (Json.arr xs) = .ok xs from rfl, pym_bind_ok]
    exact hvLoop_not_found cn xs hcls
  · intro resp cn e hresp
    subst hresp
    rfl
  · intro R exec oa cn q alpha limit t fo ft pr fl hhv
    simp only [SearchClient.hybrid_search, hhv, pym_bind_ok, pym_pure,
      Bool.not_false, if_true]

/-- Claim C9, witness: the class `Nope` is absent from the schema, the
vectorizer check is False (also False when the fetch raises), and the
hybrid search falls back to the client-side text search. -/
theorem unknown_collection_no_vectorizer_fallback_witness :
    SearchClient.has_vectorizer execDocs "Nope" = .ok false ∧
    SchemaClient.has_vectorizer (.error .attributeError) "Nope" = false ∧
    SearchClient.hybrid_search R0 execDocs docsObjectsAt "Nope" "cats" 1 10
        none none none "rankedFusion" none none
      = SearchClient.search_objects execDocs docsObjectsAt "Nope" "cats" 10 := by
  refine ⟨?_, ?_, ?_⟩
  · refine (unknown_collection_no_vectorizer_fallback).1 execDocs "Nope" _ rfl ?_
    intro s hs
    rcases List.mem_singleton.1 hs with rfl
    refine ⟨_, rfl, ?_⟩
    intro v hv
    rw [show Json.lookup [("class", Json.str "Docs"),
        ("vectorizer", Json.str "none")] "class" = some (.str "Docs") from rfl]
      at hv
    cases hv
    rfl
  · exact (unknown_collection_no_vectorizer_fallback).2.1 _ "Nope"
      .attributeError rfl
  · exact (unknown_collection_no_vectorizer_fallback).2.2 R0 execDocs
      docsObjectsAt "Nope" "cats" 1 10 none none "rankedFusion" none none
      (by rfl)

theorem transformObj_normalizes (R : Render) (o : Json) (h : RawObjOK o) :
    ∃ out, SearchClient.transformObj R o = .ok out ∧ NormalizedFrom o out := by
  obtain ⟨kvs, rfl, hadd⟩ := h
  cases hlk : Json.lookup kvs "_additional" with
  | none =>
      refine ⟨.obj [("id", .str "Unknown"),
        ("properties", .obj (kvs.filter fun kv => kv.1 ≠ "_additional")),
        ("additional", .obj [])], ?_, ?_⟩
      · simp [SearchClient.transformObj, Json.pyGetD, hlk, Json.pyIn,
          Json.lookup, pym_bind_ok, pym_pure]
      · refine ⟨kvs, rfl, .str "Unknown", [], rfl,
          lookup_filter_ne kvs "_additional", ?_⟩
        rw [hlk]
        exact ⟨rfl, rfl⟩
  | some a =>
      obtain ⟨akvs, rfl, hscore⟩ := hadd a hlk
      cases hsc : Json.lookup akvs "score" with
      | none =>
          refine ⟨.obj [("id", (Json.lookup akvs "id").getD (.str "Unknown")),
            ("properties", .obj (kvs.filter fun kv => kv.1 ≠ "_additional")),
            ("additional", .obj [])], ?_, ?_⟩
          · simp [SearchClient.transformObj, Json.pyGetD, hlk, hsc, Json.pyIn,
              pyIndexStr, pym_bind_ok, pym_pure]
          · refine ⟨kvs, rfl, _, [], rfl,
              lookup_filter_ne kvs "_additional", ?_⟩
            rw [hlk]
            refine ⟨?_, ?_⟩
            · cases hid : Json.lookup akvs "id" with
              | none => exact rfl
              | some i => exact rfl
            · rw [hsc]
      | some s =>
          obtain ⟨qv, rfl⟩ := hscore s hsc
          refine ⟨.obj [("id", (Json.lookup akvs "id").getD (.str "Unknown")),
            ("properties", .obj (kvs.filter fun kv => kv.1 ≠ "_additional")),
            ("additional", .obj [("score", .num qv)])], ?_, ?_⟩
          · simp [SearchClient.transformObj, Json.pyGetD, hlk, hsc, Json.pyIn,
              pyIndexStr, pyFloat, pym_bind_ok, pym_pure]
          · refine ⟨kvs, rfl, _, [("score", .num qv)], rfl,
              lookup_filter_ne kvs "_additional", ?_⟩
            rw [hlk]
            refine ⟨?_, ?_⟩
            · cases hid : Json.lookup akvs "id" with
              | none => exact rfl
              | some i => exact rfl
            · rw [hsc]

theorem transformLoop_forall2 (R : Render) (items : List Json)
    (h : ∀ o ∈ items, RawObjOK o) :
    ∃ outs, SearchClient.transformLoop R items = .ok outs ∧
      List.Forall₂ NormalizedFrom items outs := by
  induction items with
  | nil => exact ⟨[], rfl, List.Forall₂.nil⟩
  | cons o rest ih =>
      obtain ⟨out, ho, hn⟩ :=
        transformObj_normalizes R o (h o (List.mem_cons_self _ _))
      obtain ⟨outs, hl, hf⟩ := ih fun x hx => h x (List.mem_cons_of_mem _ hx)
      refine ⟨out :: outs, ?_, List.Forall₂.cons hn hf⟩
      simp only [SearchClient.transformLoop, pym_bind_eq_ok]
      exact ⟨out, ho, outs, hl, rfl⟩

/-- Claim C10: every object in the normalized list produced by the shared
response-formatting code of `hybrid_search` and `filter_objects` has exactly
the keys `id`/`properties`/`additional`; its properties are the raw keys
minus `_additional`; its id is the raw `_additional.id` or `"Unknown"`; and
`additional` carries a float-coerced `score` exactly when the raw
`_additional` did — and under the GraphQL-path hypotheses both
`hybrid_search` and `filter_objects` return exactly that normalized list. -/
theorem normalized_objects_shape
    (R : Render) (cn : String) (response : Json)
    (rkvs dkvs gkvs : List (String × Json)) (items : List Json)
    (hresp : response = .obj rkvs)
    (hnoerr : Json.lookup rkvs "errors" = none)
    (hdata : Json.lookup rkvs "data" = some (.obj dkvs))
    (hget : Json.lookup dkvs "Get" = some (.obj gkvs))
    (hcn : Json.lookup gkvs cn = some (.arr items))
    (hne : items ≠ [])
    (hwf : ∀ o ∈ items, RawObjOK o) :
    ∃ outs,
      SearchClient.processGraphQLResponse R cn response
        = .ok (.obj [("objects", .arr outs)]) ∧
      List.Forall₂ NormalizedFrom items outs ∧
      (∀ exec oa q alpha limit t fo v ft pr fl req,
        SearchClient.hybridRequest R exec cn q alpha limit t fo (some v)
          ft pr fl = .ok req →
        exec req = response →
        SearchClient.hybrid_search R exec oa cn q alpha limit t fo (some v)
          ft pr fl = .ok (some (.obj [("objects", .arr outs)]))) ∧
      (∀ exec oa fobj limit t fl req,
        SearchClient.has_vectorizer exec cn = .ok true →
        SearchClient.filterRequest R exec cn fobj limit t fl = .ok req →
        exec req = response →
        SearchClient.filter_objects R exec oa cn fobj limit t fl
          = .ok (.obj [("objects", .arr outs)])) := by
  subst hresp
  obtain ⟨outs, hloop, hf2⟩ := transformLoop_forall2 R items hwf
  have h1 : Json.pyIn "errors" (.obj rkvs) = .ok false := by
    simp [Json.pyIn, hnoerr]
  have h2 : Json.pyIn "data" (.obj rkvs) = .ok true := by
    simp [Json.pyIn, hdata]
  have h3 : pyIndexStr (.obj rkvs) "data" = .ok (.obj dkvs) := by
    simp [pyIndexStr, hdata]
  have h4 : Json.pyIn "Get" (.obj dkvs) = .ok true := by
    simp [Json.pyIn, hget]
  have h5 : pyIndexStr (.obj dkvs) "Get" = .ok (.obj gkvs) := by
    simp [pyIndexStr, hget]
  have h6 : Json.pyIn cn (.obj gkvs) = .ok true := by
    simp [Json.pyIn, hcn]
  have h7 : pyIndexStr (.obj gkvs) cn = .ok (.arr items) := by
    simp [pyIndexStr, hcn]
  have htr : (Json.obj rkvs).pyTruthy = true := by
    simp [Json.pyTruthy, lookup_isSome_ne_nil hdata]
  have htri : (Json.arr items).pyTruthy = true := by
    simp [Json.pyTruthy, hne]
  have hmain : SearchClient.processGraphQLResponse R cn (.obj rkvs)
      = .ok (.obj [("objects", .arr outs)]) := by
    unfold SearchClient.processGraphQLResponse
    rw [if_pos htr]
    simp [h1, h2, h3, h4, h5, h6, h7, htr, htri, hloop, pyIter, pym_bind_ok,
      pym_pure]
  refine ⟨outs, hmain, hf2, ?_, ?_⟩
  · intro exec oa q alpha limit t fo v ft pr fl req hreq hex
    rw [hybrid_graphql_path R exec oa cn q alpha limit t fo v ft pr fl req hreq,
      hex, hmain]
    rfl
  · intro exec oa fobj limit t fl req hhv hreq hex
    rw [filter_graphql_path R exec oa cn fobj limit t fl req hhv hreq, hex,
      hmain]

/-- Claim C10, witness: a concrete two-object response — one object with
`_additional.id`/`score`, one with no `_additional` — normalizes to exactly
`{id, properties, additional}` objects through `hybrid_search`. -/
theorem normalized_objects_shape_witness :
    SearchClient.hybrid_search R0 execData (fun _ => Json.obj []) "C" "q" 1 3
        none none (some []) "rankedFusion" none (some ["text"])
      = .ok (some (.obj [("objects", .arr
          [.obj [("id", .str "abc"),
                 ("properties", .obj [("text", .str "hello")]),
                 ("additional", .obj [("score", .num (1/2))])],
           .obj [("id", .str "Unknown"),
                 ("properties", .obj [("text", .str "world")]),
                 ("additional", .obj [])]])])) ∧
    ∃ outs, SearchClient.processGraphQLResponse R0 "C" dataResponse
        = .ok (.obj [("objects", .arr outs)]) ∧
      List.Forall₂ NormalizedFrom
        [.obj [("text", .str "hello"),
               ("_additional", .obj [("id", .str "abc"),
                                     ("score", .num (1/2))])],
         .obj [("text", .str "world")]] outs := by
  constructor
  · rfl
  · have hwf : ∀ o ∈ [Json.obj [("text", Json.str "hello"),
        ("_additional", Json.obj [("id", Json.str "abc"),
                                  ("score", Json.num (1/2))])],
        Json.obj [("text", Json.str "world")]], RawObjOK o := by
      intro o ho
      rcases List.mem_cons.1 ho with rfl | ho
      · refine ⟨_, rfl, ?_⟩
        intro a ha
        rw [show Json.lookup [("text", Json.str "hello"),
            ("_additional", Json.obj [("id", Json.str "abc"),
              ("score", Json.num (1/2))])] "_additional"
          = some (Json.obj [("id", Json.str "abc"),
              ("score", Json.num (1/2))]) from rfl] at ha
        cases ha
        refine ⟨_, rfl, ?_⟩
        intro s hs
        rw [show Json.lookup [("id", Json.str "abc"),
            ("score", Json.num (1/2))] "score"
          = some (Json.num (1/2)) from rfl] at hs
        cases hs
        exact ⟨_, rfl⟩
      · rcases List.mem_singleton.1 ho with rfl
        refine ⟨_, rfl, ?_⟩
        intro a ha
        rw [show Json.lookup [("text", Json.str "world")] "_additional"
          = none from rfl] at ha
        cases ha
    obtain ⟨outs, hm, hf, hhyb, hfil⟩ := normalized_objects_shape R0 "C"
      dataResponse
      [("data", .obj [("Get", .obj [("C", .arr
        [.obj [("text", .str "hello"),
               ("_additional", .obj [("id", .str "abc"),
                                     ("score", .num (1/2))])],
         .obj [("text", .str "world")]])])])]
      [("Get", .obj [("C", .arr
        [.obj [("text", .str "hello"),
               ("_additional", .obj [("id", .str "abc"),
                                     ("score", .num (1/2))])],
         .obj [("text", .str "world")]])])]
      [("C", .arr
        [.obj [("text", .str "hello"),
               ("_additional", .obj [("id", .str "abc"),
                                     ("score", .num (1/2))])],
         .obj [("text", .str "world")]])]
      [.obj [("text", .str "hello"),
             ("_additional", .obj [("id", .str "abc"),
                                   ("score", .num (1/2))])],
       .obj [("text", .str "world")]]
      rfl rfl rfl rfl rfl (by simp) hwf
    exact ⟨outs, hm, hf⟩
